import Mathlib

/-!
# A verified model of md2pptx's document compiler and layout engine

This development shallowly embeds the core algorithms of `md2pptx/main.py`
(the Markdown-to-slide-deck converter) in Lean 4 and proves, or refutes,
the behavioural properties stated in the project's specification.

Modelling conventions:
* Python `str` values that are parsed character by character are modelled as
  `List Char`; string constants are written as Lean string literals and
  converted with `String.data`.
* Python `float` arithmetic is idealized as exact rational arithmetic (`ℚ`);
  `int(x)` on a nonnegative value is `⌊x⌋` (and plain `Nat`/`Int` division
  where both operands are integers).
* Configuration options (`processingOptions.getCurrentOption`) are resolved
  values supplied by an external `ConfigurationStore`; they enter the model
  as fixed parameters.  Rendering side effects (`python-pptx` shape
  mutation, `print` reporting) are modelled as explicit result values.
-/

namespace Md2pptx

/-! ## Python string primitives over `List Char` -/

/-- Python's `\s` character class (whitespace stripped by `str.strip` and
matched by the bullet/number regexes). -/
def pyIsSpace (c : Char) : Bool :=
  c = ' ' || c = '\t' || c = '\n' || c = '\r' || c = '\x0b' || c = '\x0c'

/-- Python `s.startswith(p)`. -/
def pyStartswith (s : List Char) (p : String) : Bool :=
  p.data.isPrefixOf s

/-- Python `s.endswith(p)`. -/
def pyEndswith (s : List Char) (p : String) : Bool :=
  p.data.isSuffixOf s

/-- `startswithOneOf` from main.py: whether the line starts with one of the
needles. -/
def pyStartswithOneOf (s : List Char) (needles : List String) : Bool :=
  needles.any (fun n => pyStartswith s n)

/-- Python `s.rstrip()`: drop trailing whitespace. -/
def pyRstrip (s : List Char) : List Char :=
  (s.reverse.dropWhile pyIsSpace).reverse

/-- Python `s.lstrip()`: drop leading whitespace. -/
def pyLstrip (s : List Char) : List Char :=
  s.dropWhile pyIsSpace

/-- Python `s.strip()`. -/
def pyStrip (s : List Char) : List Char :=
  pyRstrip (pyLstrip s)

/-- Python `line.replace("\t", " " * indentSpaces)`. -/
def pyExpandTabs (indentSpaces : ℕ) (s : List Char) : List Char :=
  s.flatMap (fun c => if c = '\t' then List.replicate indentSpaces ' ' else [c])

/-! ## C1 — `scalePicture` (main.py, lines 589-606)

Given box bounds and the natural image dimensions, compute the scaled
picture dimensions.  Python float arithmetic is idealized as `ℚ`. -/

/-- `scalePicture(maxPicWidth, maxPicHeight, imageWidth, imageHeight)`:
returns `(picWidth, picHeight, usingHeightToScale)`. -/
def scalePicture (maxPicWidth maxPicHeight imageWidth imageHeight : ℚ) :
    ℚ × ℚ × Bool :=
  let heightIfWidthUsed := maxPicWidth * imageHeight / imageWidth
  let widthIfHeightUsed := maxPicHeight * imageWidth / imageHeight
  if heightIfWidthUsed > maxPicHeight then
    (widthIfHeightUsed, maxPicHeight, true)
  else
    (maxPicWidth, heightIfWidthUsed, false)

/-! ## C10 — bullets/cards height apportionment (`createListBlock`,
main.py lines 2018-2045)

`bulletCount = len(slideInfo.bullets)`, `cardCount = len(slideInfo.cards)`;
the rendering rectangle height is split between the bullets shape and the
card area.  Heights are nonnegative EMU integers; `cardPercent` is a
percentage option (float, idealized as `ℚ`); Python `int()` truncation on
the nonnegative product is `⌊·⌋`. -/

/-- Returns `(bulletsShapeHeight, cardAreaHeight)` as computed by
`createListBlock`. -/
def listBlockHeights (cardCount bulletCount : ℕ) (rectHeight : ℤ)
    (cardPercent : ℚ) : ℤ × ℤ :=
  if cardCount = 0 then
    (rectHeight, 0)
  else if 0 < bulletCount then
    let bulletsHeight : ℤ := ⌊(rectHeight : ℚ) * (100 - cardPercent) / 100⌋
    (bulletsHeight, rectHeight - bulletsHeight)
  else
    (0, rectHeight)

/-! ## C3 — content-area split (`createContentSlide`, main.py lines 1938-1969)

The slide's content rectangle is divided among the first
`blocksToRender = min(maxBlocks, len(sequence))` blocks in proportion to
the `contentSplit` weight vector.  All geometry values are nonnegative
integers (EMU), so Python's `int(a * b / c)` is `Nat` division. -/

structure Rectangle where
  top : ℕ
  left : ℕ
  height : ℕ
  width : ℕ
  deriving Repr, DecidableEq

/-- The loop body of the block-placement loop: given the per-block weights
(the first `blocksToRender` entries of `contentSplit`), the weight total
`allContentSplit`, and the two cursors, emit one rendering rectangle per
block. -/
def contentRectsAux (splitVertical : Bool) (S : ℕ)
    (contentTop contentLeft contentHeight contentWidth : ℕ) :
    List ℕ → ℕ → ℕ → List Rectangle
  | [], _, _ => []
  | w :: rest, verticalCursor, horizontalCursor =>
    if splitVertical then
      let blockHeight := contentHeight * w / S
      Rectangle.mk verticalCursor contentLeft blockHeight contentWidth ::
        contentRectsAux splitVertical S contentTop contentLeft contentHeight
          contentWidth rest (verticalCursor + blockHeight) horizontalCursor
    else
      let blockWidth := contentWidth * w / S
      Rectangle.mk contentTop horizontalCursor contentHeight blockWidth ::
        contentRectsAux splitVertical S contentTop contentLeft contentHeight
          contentWidth rest verticalCursor (horizontalCursor + blockWidth)

/-- The rendering rectangles assigned to the blocks of one slide.
`splitVertical` is `contentSplitDirection == "vertical"`;
`weights = contentSplit[0:blocksToRender]`;
`allContentSplit` is their sum (accumulated before the loop). -/
def contentRects (splitVertical : Bool) (weights : List ℕ)
    (contentTop contentLeft contentHeight contentWidth : ℕ) : List Rectangle :=
  contentRectsAux splitVertical weights.sum contentTop contentLeft
    contentHeight contentWidth weights contentTop contentLeft

/-! ## C8 — footnote pagination (`createFootnoteSlides`, main.py lines 4084-4147)

The loop over `enumerate(footnoteDefinitions)` flushes the accumulated
bullet list to a new footnote slide whenever `footnoteNumber % footnotesPerPage
== 0` for a positive index, and a final slide is always emitted after the
loop.  We model a page by its list of bullet texts. -/

/-- The `for footnoteNumber, footnote in enumerate(footnoteDefinitions)` loop:
`n` is the running `footnoteNumber`, `pages` the footnote slides created so
far (as their bullet lists), `bullets` the accumulator. -/
def footnoteLoop (P : ℕ) :
    List String → ℕ → List (List String) → List String →
      List (List String) × List String
  | [], _, pages, bullets => (pages, bullets)
  | d :: rest, n, pages, bullets =>
    let st :=
      if n % P = 0 then
        if 0 < n then (pages ++ [bullets], ([] : List String))
        else (pages, ([] : List String))
      else (pages, bullets)
    footnoteLoop P rest (n + 1) st.1 (st.2 ++ [toString (n + 1) ++ ". " ++ d])

/-- All footnote slides produced for the given definitions: the pages the
loop flushed, plus the final slide printed after the loop. -/
def footnotePages (footnoteDefinitions : List String) (P : ℕ) :
    List (List String) :=
  let r := footnoteLoop P footnoteDefinitions 0 [] []
  r.1 ++ [r.2]

/-! ## C4 — TOC wrap grid (`createTOCSlide`, main.py lines 3555-3648) -/

/-- `TOCEntriesPerRow = int((presentation.slide_width - 2*marginBase) /
(width + entryGap))` (Python `int()` of a positive float: the floor). -/
def tocEntriesPerRow (slideWidth marginBase width entryGap : ℚ) : ℤ :=
  ⌊(slideWidth - 2 * marginBase) / (width + entryGap)⌋

/-- `rowCount = 1 + TOCEntryCount / TOCEntriesPerRow` — note: Python 3 real
division, so this is in general *not* an integer. -/
def tocRowCount (TOCEntryCount : ℕ) (perRow : ℤ) : ℚ :=
  1 + (TOCEntryCount : ℚ) / (perRow : ℚ)

/-- `TOCHeight = (rowCount * height) + ((rowCount - 1) * rowGap)`. -/
def tocGridHeight (rowCount height rowGap : ℚ) : ℚ :=
  rowCount * height + (rowCount - 1) * rowGap

/-- The TOC placement loop: starting from coordinates `(x, y)` with the
per-row entry counter `cnt` (`TOCEntryNumber`), place `k` more entries.
After each entry `x` advances by `width + entryGap`; once the incremented
counter exceeds `perRow` the position wraps (`x` reset to `TOCleft`, `y`
advanced by `rowGap + height`, counter reset to 1). -/
def tocPositionsAux (TOCleft width entryGap rowGap height : ℚ) (perRow : ℕ) :
    ℕ → ℚ → ℚ → ℕ → List (ℚ × ℚ)
  | 0, _, _, _ => []
  | k + 1, x, y, cnt =>
    (x, y) ::
      (if cnt + 1 = perRow + 1 then
        tocPositionsAux TOCleft width entryGap rowGap height perRow k
          TOCleft (y + rowGap + height) 1
      else
        tocPositionsAux TOCleft width entryGap rowGap height perRow k
          (x + width + entryGap) y (cnt + 1))

/-- Positions assigned to the `entryCount` TOC entries
(`x = TOCleft, y = TOCtop, TOCEntryNumber = 1` initially). -/
def tocPositions (TOCleft TOCtop width entryGap rowGap height : ℚ)
    (perRow entryCount : ℕ) : List (ℚ × ℚ) :=
  tocPositionsAux TOCleft width entryGap rowGap height perRow entryCount
    TOCleft TOCtop 1

/-! ## C6 — media-cell classification (`parseMedia`, main.py lines 609-665)

`parseMedia` increments `graphicCount` and decrements it again iff none of
the four media regexes (`videoRegex`, `audioRegex`, `clickableGraphicRegex`,
`graphicRegex`, compiled at lines 4220-4230) matches the cell, so a cell's
net contribution is 1 exactly when it *is* a media reference.  The regexes
are anchored at the start (`re.match`); we implement matchability of each
pattern directly (lazy versus greedy grouping does not affect whether a
match exists). -/

/-- Whether `p` occurs as a contiguous substring of `s`. -/
def hasSub (p : List Char) : List Char → Bool
  | [] => p.isEmpty
  | c :: rest => p.isPrefixOf (c :: rest) || hasSub p rest

/-- `l` starts with at least one character followed (possibly later) by a
closing parenthesis: the `(.+?)\)` tail of the graphic patterns. -/
def hasCloseAfterOne : List Char → Bool
  | [] => false
  | _ :: rest => rest.contains ')'

/-- Matches `(.*?)\]\((.+?)\)` against `l`: some (possibly empty) title,
then `](`, then a nonempty path closed by `)`. -/
def graphicBody : List Char → Bool
  | [] => false
  | c :: rest =>
    (c == ']' && (match rest with
      | '(' :: rest2 => hasCloseAfterOne rest2
      | _ => false)) || graphicBody rest

/-- `graphicRegex`: `re.match(r"!\[(.*?)\]\((.+?)\)", cell)`. -/
def matchesGraphic (s : List Char) : Bool :=
  pyStartswith s "![" && graphicBody (s.drop 2)

/-- Scans for the `\)\]\(` separator of the clickable-graphic pattern,
followed by a nonempty href closed by `)`. -/
def clickSep : List Char → Bool
  | ')' :: ']' :: '(' :: rest => hasCloseAfterOne rest || clickSep (']' :: '(' :: rest)
  | _ :: rest => clickSep rest
  | [] => false

/-- After the graphic title's `](`: a nonempty path, then `)](`,
then a nonempty href closed by `)`. -/
def clickTail : List Char → Bool
  | [] => false
  | _ :: rest => clickSep rest

/-- Matches the clickable-graphic body after the leading `[![`. -/
def clickBody : List Char → Bool
  | [] => false
  | c :: rest =>
    (c == ']' && (match rest with
      | '(' :: rest2 => clickTail rest2
      | _ => false)) || clickBody rest

/-- `clickableGraphicRegex`:
`re.match(r"\[!\[(.*?)\]\((.+?)\)\]\((.+?)\)", cell)`. -/
def matchesClickable (s : List Char) : Bool :=
  pyStartswith s "[![" && clickBody (s.drop 3)

/-- `videoRegex`: `re.match("<video (.*?)></video>", cell)`. -/
def matchesVideo (s : List Char) : Bool :=
  pyStartswith s "<video " && hasSub "></video>".data (s.drop 7)

/-- `audioRegex`: `re.match("<audio (.*?)></audio>", cell)`. -/
def matchesAudio (s : List Char) : Bool :=
  pyStartswith s "<audio " && hasSub "></audio>".data (s.drop 7)

/-- Net effect of `parseMedia` on `graphicCount`: the cell is a media
reference iff one of the four regexes matches (an empty cell is not). -/
def isMediaCell (s : List Char) : Bool :=
  matchesVideo s || matchesAudio s || matchesClickable s || matchesGraphic s

/-- Maximum row width of a grid (`createTableBlock`'s `columns` loop,
main.py lines 3146-3149). -/
def maxColumns (rows : List (List (List Char))) : ℕ :=
  rows.foldl (fun m r => max m r.length) 0

/-- The top-right cell `parseMedia` inspects: `tableRows[0][1]` only when
the first row has exactly 2 cells, else the empty string
(main.py lines 2539-2542). -/
def topRightCell (tableRows : List (List (List Char))) : List Char :=
  if (tableRows.headD []).length = 2 then (tableRows.headD []).getD 1 [] else []

/-- The bottom-right cell `parseMedia` inspects: `tableRows[1][1]` only
when `gridColumns == 2` (`gridColumns` is the wider of the two rows) and
the bottom row is not a single-cell "3-up" row (main.py lines 2576-2583). -/
def bottomRightCell (tableRows : List (List (List Char))) : List Char :=
  let row0 := tableRows.headD []
  let row1 := tableRows.getD 1 []
  let gridColumns := if tableRows.length = 1 then row0.length else
    max row0.length row1.length
  if gridColumns = 2 then (if row1.length = 1 then [] else row1.getD 1 [])
  else []

/-- The graphics-grid classification of `createTableBlock`
(main.py lines 2514-2601): a candidate grid has at most 2 rows and a first
row of at most 2 cells; it reverts to a normal table if the top row has no
media cell among the inspected cells (`topGraphicCount == 0`), or, for two
rows, if the bottom row has none (`bottomGraphicCount == 0`). -/
def isGraphicsGrid (tableRows : List (List (List Char))) : Bool :=
  if tableRows.length ≤ 2 && (tableRows.headD []).length ≤ 2 then
    let topGraphicCount :=
      (if isMediaCell ((tableRows.headD []).headD []) then 1 else 0) +
        (if isMediaCell (topRightCell tableRows) then 1 else 0)
    if topGraphicCount = 0 then false
    else if tableRows.length = 2 then
      let bottomGraphicCount :=
        (if isMediaCell ((tableRows.getD 1 []).headD []) then 1 else 0) +
          (if isMediaCell (bottomRightCell tableRows) then 1 else 0)
      bottomGraphicCount != 0
    else true
  else false

/-- The classification exactly as the claim words it: at most 2 rows, at
most 2 columns, and *every* cell a media reference. -/
def graphicsGridClaim (tableRows : List (List (List Char))) : Bool :=
  (tableRows.length ≤ 2 : Bool) && (maxColumns tableRows ≤ 2 : Bool) &&
    tableRows.all (fun row => row.all isMediaCell)

/-- The amended classification, spec-style: ≤ 2 rows, first row of ≤ 2
cells, and each row holds at least one media reference among its (up to
two) inspected cells. -/
def graphicsGridSpec (tableRows : List (List (List Char))) : Prop :=
  tableRows.length ≤ 2 ∧ (tableRows.headD []).length ≤ 2 ∧
    (isMediaCell ((tableRows.headD []).headD []) = true ∨
      isMediaCell (topRightCell tableRows) = true) ∧
    (tableRows.length = 2 →
      (isMediaCell ((tableRows.getD 1 []).headD []) = true ∨
        isMediaCell (bottomRightCell tableRows) = true))

/-! ## C5 — ruled-table alignment/width row (`createTableBlock`,
main.py lines 3146-3240) -/

/-- Alignment derived from one cell of the dash row: `:-…` is left unless
it also ends in `-:` (centre); a plain `-:…` suffix is right; anything
else is left. -/
def alignOf (cell : List Char) : Char :=
  if pyStartswith cell ":-" then
    (if pyEndswith cell "-:" then 'c' else 'l')
  else if pyEndswith cell "-:" then 'r'
  else 'l'

/-- The table-heading analysis: whether the second row is a dash row
(first cell starts with `-` or `:-`), the per-column alignments and
relative widths (padded with left/1 for missing columns), and the data
rows that remain (the dash row deleted). -/
def tableHeadingInfo (tableRows : List (List (List Char))) :
    Bool × List Char × List ℕ × List (List (List Char)) :=
  let columns := maxColumns tableRows
  let haveTableHeading :=
    if 1 < tableRows.length then
      let firstCellSecondRow := (tableRows.getD 1 []).headD []
      pyStartswith firstCellSecondRow "-" || pyStartswith firstCellSecondRow ":-"
    else false
  if haveTableHeading then
    let row1 := tableRows.getD 1 []
    (true,
      row1.map alignOf ++ List.replicate (columns - row1.length) 'l',
      row1.map (fun cell => cell.count '-') ++
        List.replicate (columns - row1.length) 1,
      tableRows.eraseIdx 1)
  else
    (false, List.replicate columns 'l', List.replicate columns 1, tableRows)

/-- `cols[colno].width = int(shapeWidth * widths[colno] / widths_total)`:
column widths proportional to the parsed relative widths. -/
def tableColumnWidths (shapeWidth : ℕ) (widths : List ℕ) : List ℕ :=
  widths.map (fun w => shapeWidth * w / widths.sum)

/-- A cell of a well-formed dash row: `k` dashes, optionally preceded or
followed by a single colon. -/
inductive DashTok where
  | dashes (k : ℕ)
  | colonDashes (k : ℕ)
  | dashesColon (k : ℕ)
  deriving Repr, DecidableEq

/-- The number of `-` characters of the token. -/
def DashTok.dashCount : DashTok → ℕ
  | .dashes k => k
  | .colonDashes k => k
  | .dashesColon k => k

/-- The cell text of the token. -/
def DashTok.chars : DashTok → List Char
  | .dashes k => List.replicate k '-'
  | .colonDashes k => ':' :: List.replicate k '-'
  | .dashesColon k => List.replicate k '-' ++ [':']

/-- The alignment the claim assigns to the token: `:-` left, `-:` right,
plain dashes left. -/
def DashTok.align : DashTok → Char
  | .dashes _ => 'l'
  | .colonDashes _ => 'l'
  | .dashesColon _ => 'r'

/-! ## C9 — missing media in a graphics grid (`createTableBlock`,
main.py lines 2630-2777)

Before any shape is added for a graphics grid, the dimensions of each of
its (up to four) media files are fetched; a `-1` width (the
missing/unreadable marker of `getGraphicDimensions`) reports the file and
returns from `createTableBlock` at once — the block contributes no shapes
and the caller's per-block loop simply moves on.  `dims` abstracts
`getGraphicDimensions`; the report text is abbreviated and the success
path records one shape per present cell (tile geometry is `scalePicture`'s
business, verified separately). -/

structure PicShape where
  filename : List Char
  deriving Repr, DecidableEq

/-- The media-dimension check chain and shape emission of a graphics grid:
returns the report messages and the shapes added to the slide. -/
def renderGraphicsGrid (dims : List Char → ℤ × ℤ) (gridRows gridColumns : ℕ)
    (topLeft topRight bottomLeft bottomRight : List Char) :
    List (List Char) × List PicShape :=
  if topLeft ≠ [] ∧ (dims topLeft).1 = -1 then
    (["Missing image file: ".data ++ topLeft], [])
  else if gridColumns = 2 ∧ topRight ≠ [] ∧ (dims topRight).1 = -1 then
    (["Missing image file: ".data ++ topRight], [])
  else if gridRows = 2 ∧ bottomLeft ≠ [] ∧ (dims bottomLeft).1 = -1 then
    (["Missing image file: ".data ++ bottomLeft], [])
  else if gridRows = 2 ∧ gridColumns = 2 ∧ bottomRight ≠ [] ∧
      (dims bottomRight).1 = -1 then
    (["Missing image file: ".data ++ bottomRight], [])
  else
    ([], ([topLeft, topRight, bottomLeft, bottomRight].filter
      (fun f => ¬ f = [])).map PicShape.mk)

/-- A graphics-grid block of a content slide. -/
structure GridBlock where
  gridRows : ℕ
  gridColumns : ℕ
  topLeft : List Char
  topRight : List Char
  bottomLeft : List Char
  bottomRight : List Char
  deriving Repr, DecidableEq

/-- The per-block rendering loop of a content slide, restricted to
graphics-grid blocks: each block renders independently of the others'
outcomes. -/
def renderBlocks (dims : List Char → ℤ × ℤ) (blocks : List GridBlock) :
    List (List (List Char) × List PicShape) :=
  blocks.map (fun b =>
    renderGraphicsGrid dims b.gridRows b.gridColumns b.topLeft b.topRight
      b.bottomLeft b.bottomRight)

/-! ## C2/C7 — the document compiler (pass 5 of `cli`, main.py lines
5161-6117)

The main pass consumes the normalized lines (`linesAfterConcatenation`)
and maintains the state flags and per-slide accumulators initialized at
lines 5161-5180.  A slide is emitted (`createSlide`) at each non-card
heading while `inBlock`, and once more at end of input if anything is
open; `createSlide` returns a fresh empty `sequence` (line 3819).

External collaborators are represented as follows: the
`ConfigurationStore` supplies fixed resolved values (`indentSpaces`, the
default heading levels 1/2/3/4 of lines 4462-4466); run-level registries
(Taskpaper tasks, `slideHrefs`) and the dynamic-metadata option mutations
of the `<!-- md2pptx: ... -->` branch stay outside the compiled document
model, so those branches only consume their line (and a task bumps a
count).  The media-line branch marshals the line's media items into table
cells via `re.finditer`; the claims below depend only on the row/table
structure, so the row is modelled as the single raw line
(`mediaRowCells`). -/

/-- `titleLevel = topHeadingLevel = 1` (main.py line 4462-4463). -/
def titleLevel : ℕ := 1

/-- `sectionLevel = titleLevel + 1`. -/
def sectionLevel : ℕ := titleLevel + 1

/-- `contentLevel = sectionLevel + 1`. -/
def contentLevel : ℕ := sectionLevel + 1

/-- `cardLevel = contentLevel + 1`. -/
def cardLevel : ℕ := contentLevel + 1

/-- Appends `x` to the last inner list (`xss[-1].append(x)`); the empty
case cannot arise on the paths that use it. -/
def appendToLast : List (List α) → α → List (List α)
  | [], x => [[x]]
  | [l], x => [l ++ [x]]
  | l :: ls, x => l :: appendToLast ls x

/-- Applies `f` to the last element (`xs[-1] = f(xs[-1])`). -/
def updateLast : List α → (α → α) → List α
  | [], _ => []
  | [a], f => [f a]
  | a :: as_, f => a :: updateLast as_ f

/-- Python `s.rstrip("#")`. -/
def pyRstripHash (s : List Char) : List Char :=
  (s.reverse.dropWhile (fun c => c == '#')).reverse

/-- Scan of the reversed remainder of the title (after dropping the final
`]`) for the `\[` of `slideHrefRegex = (.+)\[(.+)\]$`: the accumulator
collects the href characters (restored to document order by consing);
a match needs a nonempty href and a nonempty title. -/
def hrefScanAux : List Char → List Char → Option (List Char × List Char)
  | _, [] => none
  | acc, c :: rest =>
    if c == '[' ∧ acc ≠ [] ∧ rest ≠ [] then some (rest.reverse, acc)
    else hrefScanAux (c :: acc) rest

/-- `parseTitleText` (main.py lines 1106-1119): strip surrounding space
and trailing `#`s, then split a trailing `[href]` if present.  Returns
`(slideTitle, href)`. -/
def parseTitleText (titleLineString : List Char) : List Char × List Char :=
  let s := pyRstrip (pyRstripHash (pyStrip titleLineString))
  match s.reverse with
  | ']' :: restRev =>
    match hrefScanAux [] restRev with
    | some (title, href) => (title, href)
    | none => (s, [])
  | _ => (s, [])

/-- `bulletRegex = ^(\s)*(\*)(.*)`: returns `(match.start(2), group(3))`,
i.e. the marker column and the text after the marker. -/
def bulletMatch (l : List Char) : Option (ℕ × List Char) :=
  let n := (l.takeWhile pyIsSpace).length
  match l.drop n with
  | c :: rest => if c = '*' then some (n, rest) else none
  | [] => none

/-- `numberRegex = ^(\s)*(\d+)\.(.*)`: returns `(match.start(2), group(3))`. -/
def numberMatch (l : List Char) : Option (ℕ × List Char) :=
  let n := (l.takeWhile pyIsSpace).length
  let ds := (l.drop n).takeWhile (fun c => c.isDigit)
  if ds.isEmpty then none
  else
    match l.drop (n + ds.length) with
    | c :: rest => if c = '.' then some (n, rest) else none
    | [] => none

/-- Cells of a media line (the `re.finditer` marshalling at main.py lines
5998-6034).  The claims verified here depend only on row and table
*counts*, never on these cells, so the row keeps the raw line as its
single cell. -/
def mediaRowCells (line : List Char) : List (List Char) := [line]

/-- A bullet entry: `[bulletLevel, bulletLine, bulletType]`. -/
abbrev BulletEntry := ℕ × List Char × String

/-- A card (`Card()` objects created at main.py line 5805). -/
structure Card where
  title : List Char
  bullets : List BulletEntry
  graphic : List Char
  deriving Repr, DecidableEq

/-- One compiled slide: the `SlideInfo` tuple passed to `createSlide`. -/
structure SlideInfo where
  titleText : List Char
  subtitleText : List Char
  blockType : String
  bullets : List BulletEntry
  tableRows : List (List (List (List Char)))
  cards : List Card
  code : List (List (List Char))
  sequence : List String
  deriving Repr, DecidableEq

/-- The state of pass 5 (initializations at main.py lines 5161-5180). -/
structure CompState where
  inBlock : Bool
  inList : Bool
  inTable : Bool
  inCard : Bool
  inTitle : Bool
  inCode : Bool
  inHTMLCode : Bool
  inFencedCode : Bool
  blockType : String
  slideTitle : List Char
  slideSubtitle : List Char
  bullets : List BulletEntry
  tableRows : List (List (List (List Char)))
  cards : List Card
  code : List (List (List Char))
  sequence : List String
  notesText : List Char
  href : List Char
  taskCount : ℕ
  lastTableLine : ℤ
  tableCaption : List Char
  tableCaptions : List (List Char)
  slides : List SlideInfo
  slideNumber : ℕ
  indentSpaces : ℕ
  deriving Repr, DecidableEq

/-- Initial state (`slideNumber = 1` at line 4214, `lastTableLine = -1` at
line 5281, flags and accumulators cleared at lines 5161-5180);
`indentSpaces` is the resolved option. -/
def initState (indentSpaces : ℕ) : CompState :=
  { inBlock := false, inList := false, inTable := false, inCard := false,
    inTitle := false, inCode := false, inHTMLCode := false,
    inFencedCode := false, blockType := "", slideTitle := [],
    slideSubtitle := [], bullets := [], tableRows := [], cards := [],
    code := [], sequence := [], notesText := [], href := [], taskCount := 0,
    lastTableLine := -1, tableCaption := [], tableCaptions := [],
    slides := [], slideNumber := 1, indentSpaces := indentSpaces }

/-- The `SlideInfo(...)` constructor call of the emit sites
(main.py lines 5819-5828 and 6106-6108). -/
def mkSlideInfo (st : CompState) : SlideInfo :=
  { titleText := st.slideTitle, subtitleText := st.slideSubtitle,
    blockType := st.blockType, bullets := st.bullets,
    tableRows := st.tableRows, cards := st.cards, code := st.code,
    sequence := st.sequence }

/-- Emitting one slide: `createSlide` appends the rendered slide, bumps
`slideNumber` and hands back an empty `sequence` (main.py lines 3817-3828,
assigned at 5829/6109). -/
def emitSlide (st : CompState) : CompState :=
  { st with slides := st.slides ++ [mkSlideInfo st],
            slideNumber := st.slideNumber + 1,
            sequence := [] }

/-- `if startswithOneOf(line, ["<pre>", "<code>"])` (main.py lines
5297-5302): open an HTML code block. -/
def preStepOpenHTML (st : CompState) (line : List Char) : CompState :=
  if pyStartswithOneOf line ["<pre>", "<code>"] then
    { st with code := st.code ++ [[]], inCode := true, inHTMLCode := true,
              inTable := false, inTitle := false }
  else st

/-- `if startswithOneOf(line, ["</pre>", "</code>"])` (lines 5304-5307):
close an HTML code block. -/
def preStepCloseHTML (st : CompState) (line : List Char) : CompState :=
  if pyStartswithOneOf line ["</pre>", "</code>"] then
    { st with inCode := false, inHTMLCode := false, inTitle := false }
  else st

/-- `if line.startswith("```")` (lines 5309-5320): toggle the fence. -/
def preStepFence (st : CompState) (line : List Char) : CompState :=
  if pyStartswith line "```" then
    if !st.inCode then
      { st with inCode := true, code := st.code ++ [[]],
                blockType := "code", inTable := false,
                inFencedCode := !st.inFencedCode, inTitle := false }
    else
      { st with inCode := false, code := appendToLast st.code line,
                inFencedCode := !st.inFencedCode, inTitle := false }
  else st

/-- `if inCode or inHTMLCode or inFencedCode` (lines 5322-5331): add the
line to the open code block, tagging the sequence with `"code"` when it is
the block's first line. -/
def preStepCode (st : CompState) (line : List Char) : CompState :=
  if st.inCode || st.inHTMLCode || st.inFencedCode then
    let code0 := if st.code = [] then st.code ++ [[]] else st.code
    let code1 := appendToLast code0 line
    let seq :=
      if (code1.getLastD []).length = 1 then st.sequence ++ ["code"]
      else st.sequence
    { st with code := code1, sequence := seq, inTitle := false }
  else st

/-- The blank line that ends an indented (non-HTML, non-fenced) code block
(lines 5332-5339). -/
def preStepBlank (st : CompState) (line : List Char) : CompState :=
  if line = [] ∧ st.inCode ∧ ¬st.inHTMLCode ∧ ¬st.inFencedCode then
    { st with inCode := false, inTitle := false }
  else st

/-- `if line.startswith("    ")) & (inList is False)` (lines 5341-5348):
a 4-space indent outside a list opens an (untagged) code block. -/
def preStepIndent (st : CompState) (line : List Char) : CompState :=
  if pyStartswith line "    " ∧ ¬st.inList then
    if !st.inCode then
      { st with code := st.code ++ [[line.drop 4]], blockType := "code",
                inCode := true, inTitle := false }
    else { st with inTitle := false }
  else st

/-- The sequential `if` statements preceding the dispatch chain
(main.py lines 5297-5348), in source order. -/
def stagePre (st : CompState) (line : List Char) : CompState :=
  preStepIndent (preStepBlank (preStepCode (preStepFence
    (preStepCloseHTML (preStepOpenHTML st line) line) line) line) line) line

/-- Appending a bullet/numbered entry (main.py lines 5876-5928): the entry
goes to the open card if one is open, else to the slide; a `"list"`
sequence tag is added when no list block was open. -/
def bulletAppend (st : CompState) (n : ℕ) (g3 : List Char) (kind : String) :
    CompState :=
  let bulletLevel := n / st.indentSpaces
  let bulletLine := pyLstrip g3
  let st1 :=
    if st.inCard then
      { st with cards := updateLast st.cards (fun c =>
          { c with bullets := c.bullets ++ [(bulletLevel, bulletLine, kind)] }) }
    else
      { st with bullets := st.bullets ++ [(bulletLevel, bulletLine, kind)] }
  let st2 :=
    if !st1.inList then { st1 with sequence := st1.sequence ++ ["list"] }
    else st1
  { st2 with inList := true, inTable := false, inTitle := false }

/-- The heading branch (main.py lines 5786-5874): a `cardLevel` heading
opens a card on the current slide; any shallower heading emits the open
slide (if any) and starts a new one of the matching block type
(`inTitle` keeps its value for a content heading, is set for
title/section ones). -/
def headingStep (st : CompState) (line : List Char) : CompState :=
  if line.take cardLevel = List.replicate cardLevel '#' then
    let parsed := parseTitleText (line.drop cardLevel)
    { st with inCard := true, href := parsed.2,
              cards := st.cards ++
                [{ title := parsed.1, bullets := [], graphic := [] }],
              inTitle := false }
  else
    let st1 := if st.inBlock then emitSlide st else st
    let lv :=
      if line.take contentLevel = List.replicate contentLevel '#' then
        (contentLevel, "content", st1.inTitle)
      else if line.take sectionLevel = List.replicate sectionLevel '#' then
        (sectionLevel, "section", true)
      else if line.take titleLevel = List.replicate titleLevel '#' then
        (titleLevel, "title", true)
      else (titleLevel, st1.blockType, false)
    let parsed := parseTitleText (line.drop lv.1)
    { st1 with blockType := lv.2.1, inTitle := lv.2.2,
               slideTitle := parsed.1, href := parsed.2,
               inBlock := true, inList := false, inTable := false,
               inCard := false, slideSubtitle := [], bullets := [],
               tableRows := [], cards := [], code := [], notesText := [] }

/-- The `elif` dispatch chain (main.py lines 5356-6094). -/
def processChain (st : CompState) (lineNumber : ℤ) (line : List Char) :
    CompState :=
  if pyStartswith line "-" then
    -- Taskpaper task: the parsed tuple joins the run-level `tasks` list
    { st with taskCount := st.taskCount + 1, inTitle := false }
  else if pyStartswith line "<a id=" then
    -- anchor registration feeds the run-level `slideHrefs` registry
    { st with inTitle := false }
  else if pyStartswith line "<!-- md2pptx: " then
    -- dynamic metadata mutates the external ConfigurationStore
    { st with inTitle := false }
  else if pyStartswith line "#" && !st.inCode then
    headingStep st line
  else
    match bulletMatch line with
    | some (n, g3) => bulletAppend st n g3 "bulleted"
    | none =>
      match numberMatch line with
      | some (n, g3) => bulletAppend st n g3 "numbered"
      | none =>
        if pyStartswithOneOf line ["<video ", "<audio ", "[![", "!["] then
          if st.inCard then
            -- the media reference attaches to the open card
            { st with cards := updateLast st.cards (fun c =>
                { c with graphic := line }) }
          else
            let st1 :=
              if !st.inTable then
                { st with blockType := "table",
                          sequence := st.sequence ++ ["table"],
                          inTable := true, inList := false, inCard := false }
              else st
            let tr := if st1.tableRows = [] then st1.tableRows ++ [[]]
              else st1.tableRows
            { st1 with tableRows := appendToLast tr (mediaRowCells line),
                       inTitle := false }
        else if pyStartswith line "|" then
          let st0 := { st with lastTableLine := lineNumber, tableCaption := [] }
          let st1 :=
            if !st0.inTable then
              { st0 with blockType := "table",
                         tableRows := st0.tableRows ++ [[]], inTable := true,
                         sequence := st0.sequence ++ ["table"],
                         inList := false, inCard := false }
            else st0
          let words := line.splitOn '|'
          let tableRow := words.drop 1
          let tableRow :=
            if words.getLastD [] = [] then tableRow.dropLast else tableRow
          { st1 with tableRows := appendToLast st1.tableRows tableRow,
                     inTitle := false }
        else if pyStartswith line "[" ∧ pyEndswith line "]" ∧
            lineNumber = st.lastTableLine + 1 then
          let cap := (line.drop 1).dropLast
          { st with tableCaption := cap,
                    tableCaptions := st.tableCaptions ++ [cap] }
        else
          let st1 := { st with inTable := false }
          let st2 :=
            if st1.tableCaptions.length < st1.tableRows.length then
              { st1 with tableCaptions := st1.tableCaptions ++ [[]] }
            else st1
          if !st2.inCode then
            let st3 := if line = [] then { st2 with inTitle := false } else st2
            if st3.inTitle then
              { st3 with slideSubtitle := st3.slideSubtitle ++ '\n' :: line }
            else if !pyStartswithOneOf line ["</pre>", "</code>"] then
              { st3 with notesText := st3.notesText ++ '\n' :: line }
            else st3
          else st2

/-- Processing of one already-normalized line: skip the `<ignoreme>`
sentinel, run the pre-chain `if`s, rewrite a horizontal rule to a level-3
heading (lines 5350-5353), then dispatch. -/
def processNorm (st : CompState) (lineNumber : ℤ) (line : List Char) :
    CompState :=
  if line = "<ignoreme>".data then st
  else
    let st1 := stagePre st line
    let hr := pyStartswithOneOf line ["<hr/>", "---", "***", "___"]
    let line2 := if hr then "### &nbsp;".data else line
    let st2 := if hr then { st1 with inTitle := true } else st1
    processChain st2 lineNumber line2

/-- Processing of one raw line of pass 5: normalize (rstrip, tab
expansion, lines 5288-5291), then process. -/
def processBody (st : CompState) (lineNumber : ℤ) (rawLine : List Char) :
    CompState :=
  processNorm st lineNumber (pyExpandTabs st.indentSpaces (pyRstrip rawLine))

/-- The whole of pass 5: fold over the enumerated normalized lines, then
finish off the last slide if a block, code or table is open
(main.py lines 6105-6109). -/
def compileLines (indentSpaces : ℕ) (lines : List (List Char)) :
    List SlideInfo :=
  let final := lines.enum.foldl
    (fun st p => processBody st (Int.ofNat p.1) p.2) (initState indentSpaces)
  if final.inBlock || final.inCode || final.inTable then
    (emitSlide final).slides
  else final.slides

/-- The empty slide record (used as a `getD` default). -/
def emptySlideInfo : SlideInfo :=
  { titleText := [], subtitleText := [], blockType := "", bullets := [],
    tableRows := [], cards := [], code := [], sequence := [] }

end Md2pptx

namespace Md2pptx

/-! ## Theorems for C1 -/

/-- C1, counterexample: the claim says *exactly one* of `picW == maxW`,
`picH == maxH` holds, but when the box and the image have the same aspect
ratio (here a 100×100 box and a 50×50 image) the width-scaling branch makes
*both* dimensions touch the box. -/
theorem scalePicture_c1_counterexample :
    (scalePicture 100 100 50 50).1 = 100 ∧
      (scalePicture 100 100 50 50).2.1 = 100 ∧
      ¬(((scalePicture 100 100 50 50).1 = 100 ∧
            (scalePicture 100 100 50 50).2.1 ≠ 100) ∨
          ((scalePicture 100 100 50 50).1 ≠ 100 ∧
            (scalePicture 100 100 50 50).2.1 = 100)) := by
  norm_num [scalePicture]

/-- C1, amended: for positive box bounds and positive natural dimensions,
the scaled picture fits the box (`picW ≤ maxW`, `picH ≤ maxH`), *at least*
one dimension touches the box, both touch exactly when the aspect ratios
agree (`maxW·h = maxH·w`), and the two branches compute
`(maxH·w/h, maxH)` resp. `(maxW, maxW·h/w)` as the claim states. -/
theorem scalePicture_c1_spec (maxW maxH w h : ℚ)
    (hW : 0 < maxW) (hH : 0 < maxH) (hw : 0 < w) (hh : 0 < h) :
    (scalePicture maxW maxH w h).1 ≤ maxW ∧
      (scalePicture maxW maxH w h).2.1 ≤ maxH ∧
      ((scalePicture maxW maxH w h).1 = maxW ∨
        (scalePicture maxW maxH w h).2.1 = maxH) ∧
      (if maxW * h / w > maxH then
          scalePicture maxW maxH w h = (maxH * w / h, maxH, true)
        else scalePicture maxW maxH w h = (maxW, maxW * h / w, false)) ∧
      (((scalePicture maxW maxH w h).1 = maxW ∧
          (scalePicture maxW maxH w h).2.1 = maxH) ↔ maxW * h = maxH * w) := by
  by_cases hc : maxW * h / w > maxH
  · have hlt : maxH * w < maxW * h := by
      have := (lt_div_iff hw).mp hc
      linarith
    have hv : scalePicture maxW maxH w h = (maxH * w / h, maxH, true) := by
      unfold scalePicture; rw [if_pos hc]
    have h1 : maxH * w / h ≤ maxW := by
      rw [div_le_iff hh]; linarith
    have h2 : maxH * w / h ≠ maxW := by
      intro he
      rw [div_eq_iff (ne_of_gt hh)] at he
      linarith
    rw [hv, if_pos hc]
    refine ⟨h1, le_refl _, Or.inr rfl, rfl, ?_⟩
    constructor
    · rintro ⟨hWeq, -⟩
      exact absurd hWeq h2
    · intro he; linarith
  · have hle : maxW * h / w ≤ maxH := not_lt.mp hc
    have hle' : maxW * h ≤ maxH * w := by
      have := (div_le_iff hw).mp hle
      linarith
    have hv : scalePicture maxW maxH w h = (maxW, maxW * h / w, false) := by
      unfold scalePicture; rw [if_neg hc]
    rw [hv, if_neg hc]
    refine ⟨le_refl _, hle, Or.inl rfl, rfl, ?_⟩
    constructor
    · rintro ⟨-, hHeq⟩
      have hHeq' : maxW * h / w = maxH := hHeq
      rw [div_eq_iff (ne_of_gt hw)] at hHeq'
      linarith
    · intro he
      refine ⟨rfl, ?_⟩
      show maxW * h / w = maxH
      rw [div_eq_iff (ne_of_gt hw)]; linarith

/-- C1 witness: the amended theorem applied to a 40×30 box and an 800×600
image (matching ratios: both dimensions touch). -/
theorem scalePicture_c1_spec_witness :
    (0 : ℚ) < 40 ∧ (0 : ℚ) < 30 ∧ (0 : ℚ) < 800 ∧ (0 : ℚ) < 600 ∧
      ((scalePicture 40 30 800 600).1 ≤ 40 ∧
        (scalePicture 40 30 800 600).2.1 ≤ 30 ∧
        ((scalePicture 40 30 800 600).1 = 40 ∨
          (scalePicture 40 30 800 600).2.1 = 30) ∧
        (if (40 : ℚ) * 600 / 800 > 30 then
            scalePicture 40 30 800 600 = (30 * 800 / 600, 30, true)
          else scalePicture 40 30 800 600 = (40, 40 * 600 / 800, false)) ∧
        (((scalePicture 40 30 800 600).1 = 40 ∧
            (scalePicture 40 30 800 600).2.1 = 30) ↔
          (40 : ℚ) * 600 = 30 * 800)) :=
  ⟨by norm_num, by norm_num, by norm_num, by norm_num,
    scalePicture_c1_spec 40 30 800 600 (by norm_num) (by norm_num)
      (by norm_num) (by norm_num)⟩

/-! ## Theorems for C10 -/

/-- C10: when a slide has at least one card and no bullets, the card area
gets the full rendering-rectangle height (and the bullets shape height 0);
the `cardPercent` apportionment is applied exactly when there is also at
least one bullet. -/
theorem listBlockHeights_c10_spec (cardCount bulletCount : ℕ) (rectHeight : ℤ)
    (cardPercent : ℚ) (hc : 0 < cardCount) :
    (bulletCount = 0 →
      listBlockHeights cardCount bulletCount rectHeight cardPercent =
        (0, rectHeight)) ∧
    (0 < bulletCount →
      listBlockHeights cardCount bulletCount rectHeight cardPercent =
        (⌊(rectHeight : ℚ) * (100 - cardPercent) / 100⌋,
          rectHeight - ⌊(rectHeight : ℚ) * (100 - cardPercent) / 100⌋)) := by
  constructor
  · intro hb
    simp [listBlockHeights, hc.ne', hb]
  · intro hb
    simp [listBlockHeights, hc.ne', hb]

/-- C10 witness: two cards, no bullets, height 1000, cardPercent 80:
the card area receives the full 1000. -/
theorem listBlockHeights_c10_spec_witness :
    0 < 2 ∧
      ((0 = 0 →
        listBlockHeights 2 0 1000 80 = (0, 1000)) ∧
      (0 < 0 →
        listBlockHeights 2 0 1000 80 =
          (⌊(1000 : ℚ) * (100 - 80) / 100⌋,
            1000 - ⌊(1000 : ℚ) * (100 - 80) / 100⌋))) :=
  ⟨by norm_num, listBlockHeights_c10_spec 2 0 1000 80 (by norm_num)⟩

/-! ## Theorems for C3 -/

/-- C3, counterexample: with `contentSplit = [1,1]`, a 300-unit-wide,
200-unit-high content region and `contentSplitDirection = "vertical"`, the
code stacks the two blocks: each keeps the full 300-unit width (the
*heights* are halved), whereas the claim predicts two 150-unit-wide
blocks. -/
theorem contentRects_c3_counterexample :
    contentRects true [1, 1] 0 0 200 300 =
      [Rectangle.mk 0 0 100 300, Rectangle.mk 100 0 100 300] ∧
    ((contentRects true [1, 1] 0 0 200 300).getD 0
        (Rectangle.mk 0 0 0 0)).width = 300 ∧
    (300 : ℕ) ≠ 150 := by
  decide

/-- Position/extent formula for the vertical-split loop, for any weight
list, cursor values and weight total. -/
theorem contentRectsAux_vertical_getD (S t l H W : ℕ) :
    ∀ (ws : List ℕ) (vc hc i : ℕ), i < ws.length →
      (contentRectsAux true S t l H W ws vc hc).getD i (Rectangle.mk 0 0 0 0) =
        Rectangle.mk (vc + ((ws.take i).map (fun w => H * w / S)).sum) l
          (H * ws.getD i 0 / S) W := by
  intro ws
  induction ws with
  | nil => intro vc hc i hi; simp at hi
  | cons w rest ih =>
    intro vc hc i hi
    cases i with
    | zero => simp [contentRectsAux]
    | succ i =>
      have hi' : i < rest.length := by simpa using hi
      simp only [contentRectsAux, reduceIte, List.getD_cons_succ,
        List.take_succ_cons, List.map_cons, List.sum_cons]
      rw [ih (vc + H * w / S) hc i hi']
      congr 1
      omega

/-- Position/extent formula for the horizontal-split loop. -/
theorem contentRectsAux_horizontal_getD (S t l H W : ℕ) :
    ∀ (ws : List ℕ) (vc hc i : ℕ), i < ws.length →
      (contentRectsAux false S t l H W ws vc hc).getD i (Rectangle.mk 0 0 0 0) =
        Rectangle.mk t (hc + ((ws.take i).map (fun w => W * w / S)).sum)
          H (W * ws.getD i 0 / S) := by
  intro ws
  induction ws with
  | nil => intro vc hc i hi; simp at hi
  | cons w rest ih =>
    intro vc hc i hi
    cases i with
    | zero => simp [contentRectsAux]
    | succ i =>
      have hi' : i < rest.length := by simpa using hi
      simp only [contentRectsAux, Bool.false_eq_true, if_false,
        List.getD_cons_succ, List.take_succ_cons, List.map_cons, List.sum_cons]
      rw [ih vc (hc + W * w / S) i hi']
      congr 1
      omega

/-- C3, amended: block `i` receives `⌊totalExtent · wᵢ / Σweights⌋` along
the split axis ("vertical" splits the *height*, otherwise the *width*) and
the full extent along the other axis, stacked in sequence order after its
predecessors; a slide with a single block receives the whole region
regardless of its (positive) weight. -/
theorem contentRects_c3_spec :
    (∀ (ws : List ℕ) (t l H W i : ℕ), i < ws.length →
      (contentRects true ws t l H W).getD i (Rectangle.mk 0 0 0 0) =
        Rectangle.mk (t + ((ws.take i).map (fun w => H * w / ws.sum)).sum) l
          (H * ws.getD i 0 / ws.sum) W) ∧
    (∀ (ws : List ℕ) (t l H W i : ℕ), i < ws.length →
      (contentRects false ws t l H W).getD i (Rectangle.mk 0 0 0 0) =
        Rectangle.mk t (l + ((ws.take i).map (fun w => W * w / ws.sum)).sum)
          H (W * ws.getD i 0 / ws.sum)) ∧
    (∀ (d : Bool) (w t l H W : ℕ), 0 < w →
      contentRects d [w] t l H W = [Rectangle.mk t l H W]) := by
    refine ⟨?_, ?_, ?_⟩
    · intro ws t l H W i hi
      exact contentRectsAux_vertical_getD ws.sum t l H W ws t l i hi
    · intro ws t l H W i hi
      exact contentRectsAux_horizontal_getD ws.sum t l H W ws t l i hi
    · intro d w t l H W hw
      cases d <;>
        simp [contentRects, contentRectsAux, Nat.mul_div_cancel _ hw,
          Nat.mul_div_cancel_left _ hw, Nat.mul_div_assoc, Nat.div_self hw]

/-- C3 witness: horizontal split, weights `[1, 1]`, 300-unit-wide region:
block 0 is 150 units wide starting at the region's left edge; and a single
block with weight 7 fills the whole region. -/
theorem contentRects_c3_spec_witness :
    (0 : ℕ) < 2 ∧
      (contentRects false [1, 1] 0 0 200 300).getD 0 (Rectangle.mk 0 0 0 0) =
        Rectangle.mk 0 (0 + (([1, 1].take 0).map
          (fun w => 300 * w / [1, 1].sum)).sum) 200
          (300 * [1, 1].getD 0 0 / [1, 1].sum) ∧
      (0 : ℕ) < 7 ∧
      contentRects true [7] 5 6 200 300 = [Rectangle.mk 5 6 200 300] :=
  ⟨by norm_num,
    contentRects_c3_spec.2.1 [1, 1] 0 0 200 300 0 (by norm_num),
    by norm_num,
    contentRects_c3_spec.2.2 true 7 5 6 200 300 (by norm_num)⟩

/-! ## Theorems for C8 -/

/-- Division/modulus of the predecessor of a positive number. -/
theorem pred_div_mod (P n : ℕ) (hP : 0 < P) (hn : 0 < n) :
    (n % P = 0 → (n - 1) % P = P - 1 ∧ (n - 1) / P + 1 = n / P) ∧
    (n % P ≠ 0 → (n - 1) % P = n % P - 1 ∧ (n - 1) / P = n / P) := by
  have hdm : P * (n / P) + n % P = n := Nat.div_add_mod n P
  have hmlt : n % P < P := Nat.mod_lt n hP
  constructor
  · intro h
    have hq : 0 < n / P :=
      Nat.div_pos (Nat.le_of_dvd hn (Nat.dvd_of_mod_eq_zero h)) hP
    have hsub : n - 1 = (P - 1) + P * (n / P - 1) := by
      have : P * (n / P) = P * (n / P - 1) + P := by
        calc P * (n / P) = P * ((n / P - 1) + 1) := by rw [Nat.sub_add_cancel hq]
          _ = P * (n / P - 1) + P := by ring
      omega
    have hm : (n - 1) % P = P - 1 := by
      rw [hsub, Nat.add_mul_mod_self_left, Nat.mod_eq_of_lt (by omega)]
    have hd : (n - 1) / P = n / P - 1 := by
      rw [hsub, Nat.add_mul_div_left _ _ hP, Nat.div_eq_of_lt (by omega)]
      omega
    exact ⟨hm, by omega⟩
  · intro h
    have hsub : n - 1 = (n % P - 1) + P * (n / P) := by omega
    have hm : (n - 1) % P = n % P - 1 := by
      rw [hsub, Nat.add_mul_mod_self_left, Nat.mod_eq_of_lt (by omega)]
    have hd : (n - 1) / P = n / P := by
      rw [hsub, Nat.add_mul_div_left _ _ hP, Nat.div_eq_of_lt (by omega)]
      omega
    exact ⟨hm, by omega⟩

/-- Loop invariant for `footnoteLoop`: starting at a positive index `n`
with an accumulator holding `(n-1) % P + 1` bullets, the loop flushes only
full pages of exactly `P` bullets, flushes
`(n - 1 + len) / P - (n - 1) / P` of them, and finishes with
`(n - 1 + len) % P + 1` bullets accumulated. -/
theorem footnoteLoop_invariant (P : ℕ) (hP : 0 < P) :
    ∀ (items : List String) (n : ℕ) (pages : List (List String))
      (bullets : List String), 0 < n → bullets.length = (n - 1) % P + 1 →
      (footnoteLoop P items n pages bullets).1.length =
          pages.length + ((n - 1 + items.length) / P - (n - 1) / P) ∧
        (∀ pg ∈ (footnoteLoop P items n pages bullets).1,
          pg ∈ pages ∨ pg.length = P) ∧
        (footnoteLoop P items n pages bullets).2.length =
          (n - 1 + items.length) % P + 1 := by
  intro items
  induction items with
  | nil =>
    intro n pages bullets hn hb
    refine ⟨by simp [footnoteLoop], ?_, by simp [footnoteLoop, hb]⟩
    intro pg hpg
    exact Or.inl (by simpa [footnoteLoop] using hpg)
  | cons d rest ih =>
    intro n pages bullets hn hb
    by_cases h : n % P = 0
    · obtain ⟨hm, hd⟩ := (pred_div_mod P n hP hn).1 h
      have hstep : footnoteLoop P (d :: rest) n pages bullets =
          footnoteLoop P rest (n + 1) (pages ++ [bullets])
            ([] ++ [toString (n + 1) ++ ". " ++ d]) := by
        simp [footnoteLoop, h, hn]
      have hb' : ([] ++ [toString (n + 1) ++ ". " ++ d] : List String).length =
          (n + 1 - 1) % P + 1 := by
        simp [Nat.add_sub_cancel, h]
      obtain ⟨h1, h2, h3⟩ := ih (n + 1) (pages ++ [bullets])
        ([] ++ [toString (n + 1) ++ ". " ++ d]) (by omega) hb'
      rw [hstep]
      have hmono : (n - 1) / P ≤ (n + rest.length) / P :=
        Nat.div_le_div_right (by omega)
      have hmono2 : n / P ≤ (n + rest.length) / P :=
        Nat.div_le_div_right (by omega)
      refine ⟨?_, ?_, ?_⟩
      · rw [h1]
        have e1 : n + 1 - 1 + rest.length = n + rest.length := by omega
        have e2 : n + 1 - 1 = n := by omega
        rw [e1, e2]
        have e3 : n - 1 + (rest.length + 1) = n + rest.length := by omega
        simp only [List.length_append, List.length_cons, List.length_nil, e3]
        omega
      · intro pg hpg
        rcases h2 pg hpg with hmem | hlen
        · rcases List.mem_append.mp hmem with hmem' | hmem'
          · exact Or.inl hmem'
          · right
            have : pg = bullets := by simpa using hmem'
            rw [this, hb, hm]
            omega
        · exact Or.inr hlen
      · rw [h3]
        simp only [List.length_cons]
        have e : n + 1 - 1 + rest.length = n - 1 + (rest.length + 1) := by omega
        rw [e]
    · obtain ⟨hm, hd⟩ := (pred_div_mod P n hP hn).2 h
      have hstep : footnoteLoop P (d :: rest) n pages bullets =
          footnoteLoop P rest (n + 1) pages
            (bullets ++ [toString (n + 1) ++ ". " ++ d]) := by
        simp [footnoteLoop, h]
      have hmpos : 0 < n % P := Nat.pos_of_ne_zero h
      have hb' : (bullets ++ [toString (n + 1) ++ ". " ++ d]).length =
          (n + 1 - 1) % P + 1 := by
        have e2 : n + 1 - 1 = n := by omega
        rw [e2]
        simp only [List.length_append, List.length_cons, List.length_nil, hb, hm]
        omega
      obtain ⟨h1, h2, h3⟩ := ih (n + 1) pages
        (bullets ++ [toString (n + 1) ++ ". " ++ d]) (by omega) hb'
      rw [hstep]
      refine ⟨?_, h2, ?_⟩
      · rw [h1]
        have e1 : n + 1 - 1 + rest.length = n + rest.length := by omega
        have e2 : n + 1 - 1 = n := by omega
        rw [e1, e2, hd]
        simp only [List.length_cons]
        have e3 : n - 1 + (rest.length + 1) = n + rest.length := by omega
        rw [e3]
      · rw [h3]
        simp only [List.length_cons]
        have e : n + 1 - 1 + rest.length = n - 1 + (rest.length + 1) := by omega
        rw [e]

/-- C8: for `N ≥ 1` footnote definitions and page size `P ≥ 1`,
`createFootnoteSlides` produces exactly `⌈N/P⌉` footnote slides, and every
slide except possibly the last holds exactly `P` footnote items. -/
theorem footnotePages_c8_spec (defs : List String) (P : ℕ)
    (hP : 0 < P) (hne : defs ≠ []) :
    (footnotePages defs P).length = (defs.length + P - 1) / P ∧
    ∀ i, i + 1 < (footnotePages defs P).length →
      ((footnotePages defs P).getD i []).length = P := by
  obtain ⟨d, rest, rfl⟩ := List.exists_cons_of_ne_nil hne
  have hstep : footnoteLoop P (d :: rest) 0 [] [] =
      footnoteLoop P rest 1 [] ([] ++ [toString (0 + 1) ++ ". " ++ d]) := by
    simp [footnoteLoop]
  obtain ⟨h1, h2, h3⟩ := footnoteLoop_invariant P hP rest 1 []
    ([] ++ [toString (0 + 1) ++ ". " ++ d]) (by omega) (by simp)
  have hlen : (footnotePages (d :: rest) P).length = rest.length / P + 1 := by
    simp only [footnotePages, hstep, List.length_append, List.length_cons,
      List.length_nil, h1]
    simp
  constructor
  · rw [hlen]
    have : (d :: rest).length + P - 1 = rest.length + P := by
      simp [List.length_cons]
    rw [this, Nat.add_div_right _ hP]
  · intro i hi
    rw [hlen] at hi
    have hi1 : i < (footnoteLoop P rest 1 []
        ([] ++ [toString (0 + 1) ++ ". " ++ d])).1.length := by
      rw [h1]; simpa using hi
    have hgd : (footnotePages (d :: rest) P).getD i [] =
        (footnoteLoop P rest 1 [] ([] ++ [toString (0 + 1) ++ ". " ++ d])).1.getD i [] := by
      simp only [footnotePages, hstep]
      rw [List.getD_eq_getElem?_getD, List.getD_eq_getElem?_getD,
        List.getElem?_append_left hi1]
    rw [hgd, List.getD_eq_getElem _ _ hi1]
    have hmem := List.getElem_mem (l := (footnoteLoop P rest 1 []
      ([] ++ [toString (0 + 1) ++ ". " ++ d])).1) (h := hi1)
    rcases h2 _ hmem with hmem' | hlen'
    · exact absurd hmem' (List.not_mem_nil _)
    · exact hlen'

/-- C8 witness: 7 footnotes at page size 3 give `⌈7/3⌉ = 3` slides, the
first two holding exactly 3 items. -/
theorem footnotePages_c8_spec_witness :
    0 < 3 ∧ (["a", "b", "c", "d", "e", "f", "g"] : List String) ≠ [] ∧
      ((footnotePages ["a", "b", "c", "d", "e", "f", "g"] 3).length =
          (7 + 3 - 1) / 3 ∧
        ∀ i, i + 1 < (footnotePages ["a", "b", "c", "d", "e", "f", "g"] 3).length →
          ((footnotePages ["a", "b", "c", "d", "e", "f", "g"] 3).getD i []).length = 3) :=
  ⟨by norm_num, by simp,
    by
      have := footnotePages_c8_spec ["a", "b", "c", "d", "e", "f", "g"] 3
        (by norm_num) (by simp)
      simpa using this⟩

/-! ## Theorems for C4 -/

/-- C4, counterexample: with available width 330, item width 100 and gap 10,
`entriesPerRow` is indeed `⌊330/110⌋ = 3`, but for 7 entries the code's
`rowCount = 1 + 7/3 = 10/3` (Python 3 real division) is *not*
`⌈7/3⌉ = 3`, so the grid extent used for centring is not derived from the
claimed row count. -/
theorem toc_c4_counterexample :
    tocEntriesPerRow 330 0 100 10 = 3 ∧
      tocRowCount 7 3 = 10 / 3 ∧
      tocRowCount 7 3 ≠ ((3 : ℕ) : ℚ) ∧
      ⌈(7 : ℚ) / 3⌉ = 3 := by
  refine ⟨?_, ?_, ?_, ?_⟩
  · unfold tocEntriesPerRow
    norm_num
  · unfold tocRowCount
    norm_num
  · unfold tocRowCount
    norm_num
  · rw [Int.ceil_eq_iff]
    norm_num

/-- Invariant for the TOC placement loop: starting from `(x, y)` with the
per-row counter `cnt = c` (so `c - 1` entries already sit in the current
row), the `i`-th of the next `k` entries is placed at the claimed
wrap-around position. -/
theorem tocPositionsAux_getD (TOCleft w g rg h : ℚ) (P : ℕ) :
    ∀ (k c : ℕ) (x y : ℚ), 1 ≤ c → c ≤ P → ∀ i, i < k →
      (tocPositionsAux TOCleft w g rg h P k x y c).getD i (0, 0) =
        (if i + c - 1 < P then (x + i * (w + g), y)
          else (TOCleft + (((i + c - 1) % P : ℕ) : ℚ) * (w + g),
            y + (((i + c - 1) / P : ℕ) : ℚ) * (rg + h))) := by
  intro k
  induction k with
  | zero => intro c x y hc1 hcP i hi; omega
  | succ k ih =>
    intro c x y hc1 hcP i hi
    cases i with
    | zero =>
      have hlt : 0 + c - 1 < P := by omega
      simp only [tocPositionsAux, List.getD_cons_zero, if_pos hlt]
      norm_num
    | succ i =>
      have hik : i < k := by omega
      by_cases hwrap : c + 1 = P + 1
      · have hcp : c = P := by omega
        simp only [tocPositionsAux, if_pos hwrap, List.getD_cons_succ]
        rw [ih 1 TOCleft (y + rg + h) (by omega) (by omega) i hik]
        have he : i + 1 + c - 1 = i + P := by omega
        rw [he]
        by_cases hiP : i + 1 - 1 < P
        · have hi' : i < P := by omega
          rw [if_pos hiP]
          have h1 : ¬ i + P < P := by omega
          rw [if_neg h1]
          have hm : (i + P) % P = i := by
            rw [Nat.add_mod_right, Nat.mod_eq_of_lt hi']
          have hd : (i + P) / P = 1 := by
            rw [Nat.add_div_right _ (by omega), Nat.div_eq_of_lt hi']
          rw [hm, hd, Prod.mk.injEq]
          constructor
          · rfl
          · push_cast
            ring
        · have hi' : ¬ i < P := by omega
          have e1 : i + 1 - 1 = i := by omega
          rw [e1, if_neg hi']
          have h1 : ¬ i + P < P := by omega
          rw [if_neg h1]
          have hm : (i + P) % P = i % P := Nat.add_mod_right i P
          have hd : (i + P) / P = i / P + 1 := Nat.add_div_right _ (by omega)
          rw [hm, hd, Prod.mk.injEq]
          constructor
          · rfl
          · push_cast
            ring
      · have hcP' : c + 1 ≤ P := by omega
        simp only [tocPositionsAux, if_neg hwrap, List.getD_cons_succ]
        rw [ih (c + 1) (x + w + g) y (by omega) hcP' i hik]
        have he : i + (c + 1) - 1 = i + 1 + c - 1 := by omega
        rw [he]
        by_cases hcase : i + 1 + c - 1 < P
        · rw [if_pos hcase, if_pos hcase, Prod.mk.injEq]
          constructor
          · push_cast
            ring
          · rfl
        · rw [if_neg hcase, if_neg hcase]

/-- C4, amended: `entriesPerRow = ⌊availableWidth / (itemWidth + gap)⌋`
holds as claimed, but the grid height is derived from
`rowCount = 1 + entryCount/entriesPerRow` in exact division (not
`⌈entryCount/entriesPerRow⌉`); placement advances by `itemWidth + gap`
along a row and, after every `entriesPerRow` entries, wraps to a new row
(`x` reset to the grid's left edge, `y` advanced by `itemHeight + rowGap`):
entry `i` (0-based) sits at
`(TOCleft + (i mod P)·(w+g), TOCtop + (i div P)·(rowGap+h))`. -/
theorem toc_c4_spec :
    (∀ sw mb w g : ℚ, tocEntriesPerRow sw mb w g = ⌊(sw - 2 * mb) / (w + g)⌋) ∧
    (∀ (N : ℕ) (pr : ℤ), tocRowCount N pr = 1 + (N : ℚ) / (pr : ℚ)) ∧
    (∀ (TOCleft TOCtop w g rg h : ℚ) (P n i : ℕ), 0 < P → i < n →
      (tocPositions TOCleft TOCtop w g rg h P n).getD i (0, 0) =
        (TOCleft + ((i % P : ℕ) : ℚ) * (w + g),
          TOCtop + ((i / P : ℕ) : ℚ) * (rg + h))) := by
  refine ⟨fun _ _ _ _ => rfl, fun _ _ => rfl, ?_⟩
  intro TOCleft TOCtop w g rg h P n i hP hi
  unfold tocPositions
  rw [tocPositionsAux_getD TOCleft w g rg h P n 1 TOCleft TOCtop le_rfl hP i hi]
  have e1 : i + 1 - 1 = i := by omega
  rw [e1]
  by_cases hiP : i < P
  · rw [if_pos hiP, Nat.mod_eq_of_lt hiP, Nat.div_eq_of_lt hiP, Prod.mk.injEq]
    constructor
    · rfl
    · norm_num
  · rw [if_neg hiP]

/-- C4 witness: 7 entries, `entriesPerRow = 3`, item width 100, gap 10,
row gap 5, item height 50, grid at `(0, 0)`: the 4th entry (index 3) wraps
to the start of the second row. -/
theorem toc_c4_spec_witness :
    0 < 3 ∧ 3 < 7 ∧
      (tocPositions 0 0 100 10 5 50 3 7).getD 3 (0, 0) =
        (0 + ((3 % 3 : ℕ) : ℚ) * (100 + 10),
          0 + ((3 / 3 : ℕ) : ℚ) * (5 + 50)) :=
  ⟨by norm_num, by norm_num,
    toc_c4_spec.2.2 0 0 100 10 5 50 3 7 3 (by norm_num) (by norm_num)⟩

/-! ## Theorems for C2 -/

/-- C2: the compiler's `sequence` invariant is broken by 4-space indented
code blocks.  On the document `### Slide` / blank / `    print(1)` exactly
one slide is emitted; it holds one code block (and no table or bullet
list), yet its `sequence` is empty — `len(sequence) = 0 ≠ 1`, the number
of blocks opened.  The indented-code branch (main.py line 5341-5348) opens
the block without ever appending `"code"` to `sequence`, so
`createContentSlide` (which renders only `len(sequence)` blocks) silently
drops the block; the fenced and `<pre>`/`<code>` paths do append the tag
(line 5329). -/
theorem compile_c2_code_bug :
    (compileLines 2 ["### Slide".data, "".data, "    print(1)".data]).length
        = 1 ∧
      ((compileLines 2 ["### Slide".data, "".data,
          "    print(1)".data]).headD emptySlideInfo).sequence = [] ∧
      ((compileLines 2 ["### Slide".data, "".data,
          "    print(1)".data]).headD emptySlideInfo).code.length = 1 ∧
      ((compileLines 2 ["### Slide".data, "".data,
          "    print(1)".data]).headD emptySlideInfo).tableRows.length = 0 ∧
      ((compileLines 2 ["### Slide".data, "".data,
          "    print(1)".data]).headD emptySlideInfo).bullets = [] ∧
      (0 : ℕ) ≠ 0 + 0 + 1 := by
  decide

/-! ## Theorems for C6 -/

/-- C6, counterexample: the 1×2 grid `|![a](p)|hello|` has a non-media
cell (`hello`), so by the claim it should be a ruled table; the code
classifies it as a graphics grid because *one* media cell in the row
suffices (`topGraphicCount` is only checked against 0). -/
theorem graphicsGrid_c6_counterexample :
    isGraphicsGrid [["![a](p)".data, "hello".data]] = true ∧
      graphicsGridClaim [["![a](p)".data, "hello".data]] = false ∧
      isMediaCell "hello".data = false := by
  decide

/-- C6, amended: a `TableGrid` is classified as a graphics grid iff it has
at most 2 rows, its *first* row has at most 2 cells, and each row contains
at least one media-reference cell among the (up to two) cells the code
inspects — not only when *every* cell is a media reference. -/
theorem graphicsGrid_c6_spec (rows : List (List (List Char))) :
    isGraphicsGrid rows = true ↔ graphicsGridSpec rows := by
  unfold isGraphicsGrid graphicsGridSpec
  by_cases h1 : rows.length ≤ 2 <;>
    by_cases h2 : (rows.headD []).length ≤ 2 <;>
    by_cases hr2 : rows.length = 2 <;>
    by_cases hA : isMediaCell ((rows.headD []).headD []) = true <;>
    by_cases hB : isMediaCell (topRightCell rows) = true <;>
    by_cases hC : isMediaCell ((rows.getD 1 []).headD []) = true <;>
    by_cases hD : isMediaCell (bottomRightCell rows) = true <;>
    simp [h1, h2, hr2, hA, hB, hC, hD]

/-! ## Theorems for C5 -/

/-- C6 witness: the amended classification applied to a concrete 1×1 grid. -/
theorem graphicsGrid_c6_spec_witness :
    isGraphicsGrid [["![a](p)".data]] = true ↔
      graphicsGridSpec [["![a](p)".data]] :=
  graphicsGrid_c6_spec [["![a](p)".data]]

/-- A dash token with at least one dash starts with `-` or `:-`. -/
theorem dashTok_starts (t : DashTok) (h : 0 < t.dashCount) :
    (pyStartswith t.chars "-" || pyStartswith t.chars ":-") = true := by
  cases t with
  | dashes m =>
    obtain ⟨k, rfl⟩ : ∃ k, m = k + 1 := by
      simp only [DashTok.dashCount] at h; exact ⟨m - 1, by omega⟩
    simp [DashTok.chars, pyStartswith, List.replicate_succ, List.isPrefixOf]
  | colonDashes m =>
    obtain ⟨k, rfl⟩ : ∃ k, m = k + 1 := by
      simp only [DashTok.dashCount] at h; exact ⟨m - 1, by omega⟩
    simp [DashTok.chars, pyStartswith, List.replicate_succ, List.isPrefixOf]
  | dashesColon m =>
    obtain ⟨k, rfl⟩ : ∃ k, m = k + 1 := by
      simp only [DashTok.dashCount] at h; exact ⟨m - 1, by omega⟩
    simp [DashTok.chars, pyStartswith, List.replicate_succ, List.isPrefixOf]

/-- `:-` is never a prefix of a dash-headed list. -/
theorem colonDash_not_prefix (n : ℕ) (L : List Char) :
    ([':', '-'].isPrefixOf (List.replicate n '-' ++ '-' :: L)) = false := by
  cases n with
  | zero => simp [List.isPrefixOf]
  | succ n => simp [List.replicate_succ, List.isPrefixOf]

/-- `-` is a prefix of every dash-headed list. -/
theorem dash_prefix (n : ℕ) (L : List Char) :
    ['-'] <+: List.replicate n '-' ++ '-' :: L := by
  cases n with
  | zero => simp
  | succ n => simp [List.replicate_succ, List.cons_prefix_iff]

/-- The alignment computed from a dash token's cell text matches the
claim's table: `:-…` left, `…-:` right, plain dashes left. -/
theorem alignOf_dashTok (t : DashTok) (h : 0 < t.dashCount) :
    alignOf t.chars = t.align := by
  cases t with
  | dashes m =>
    obtain ⟨k, rfl⟩ : ∃ k, m = k + 1 := by
      simp only [DashTok.dashCount] at h; exact ⟨m - 1, by omega⟩
    have h2 : pyEndswith ('-' :: List.replicate k '-') "-:" = false := by
      cases k <;>
        simp [pyEndswith, List.isSuffixOf, List.isPrefixOf,
          List.replicate_succ, List.cons_prefix_iff, colonDash_not_prefix,
          dash_prefix]
    simp [alignOf, DashTok.chars, DashTok.align, pyStartswith,
      List.replicate_succ, List.isPrefixOf, h2]
  | colonDashes m =>
    obtain ⟨k, rfl⟩ : ∃ k, m = k + 1 := by
      simp only [DashTok.dashCount] at h; exact ⟨m - 1, by omega⟩
    have h2 : pyEndswith (':' :: '-' :: List.replicate k '-') "-:" = false := by
      cases k <;>
        simp [pyEndswith, List.isSuffixOf, List.isPrefixOf,
          List.replicate_succ, List.cons_prefix_iff, colonDash_not_prefix,
          dash_prefix]
    simp [alignOf, DashTok.chars, DashTok.align, pyStartswith,
      List.replicate_succ, List.isPrefixOf, h2]
  | dashesColon m =>
    obtain ⟨k, rfl⟩ : ∃ k, m = k + 1 := by
      simp only [DashTok.dashCount] at h; exact ⟨m - 1, by omega⟩
    have h2 : pyEndswith ('-' :: (List.replicate k '-' ++ [':'])) "-:" =
        true := by
      cases k <;>
        simp [pyEndswith, List.isSuffixOf, List.isPrefixOf,
          List.replicate_succ, List.cons_prefix_iff, colonDash_not_prefix,
          dash_prefix]
    simp [alignOf, DashTok.chars, DashTok.align, pyStartswith,
      List.replicate_succ, List.isPrefixOf, h2]

/-- A dash token's cell text contains exactly `dashCount` dashes. -/
theorem count_dashTok (t : DashTok) : t.chars.count '-' = t.dashCount := by
  cases t <;>
    simp [DashTok.chars, DashTok.dashCount, List.count_replicate,
      List.count_cons, List.count_append]

/-- C5: if the second row of a ruled table consists solely of dash tokens
(each with at least one dash), `createTableBlock` treats it as the
alignment/width row: it is deleted from the data rows, each column's
alignment is left for `-…`/`:-…` and right for `…-:`, its relative width
is the token's dash count, missing columns default to left/1, and the
final column widths follow `int(shapeWidth * width / widths_total)` —
proportional to the weights. -/
theorem tableHeading_c5_spec (r0 : List (List Char)) (toks : List DashTok)
    (rest : List (List (List Char))) (hne : toks ≠ [])
    (hpos : ∀ t ∈ toks, 0 < t.dashCount) :
    tableHeadingInfo (r0 :: toks.map DashTok.chars :: rest) =
      (true,
        toks.map DashTok.align ++
          List.replicate
            (maxColumns (r0 :: toks.map DashTok.chars :: rest) - toks.length)
            'l',
        toks.map DashTok.dashCount ++
          List.replicate
            (maxColumns (r0 :: toks.map DashTok.chars :: rest) - toks.length)
            1,
        r0 :: rest) ∧
    ∀ (W : ℕ) (ws : List ℕ),
      tableColumnWidths W ws = ws.map (fun w => W * w / ws.sum) := by
  refine ⟨?_, fun _ _ => rfl⟩
  obtain ⟨t, ts, rfl⟩ := List.exists_cons_of_ne_nil hne
  have hhead : (pyStartswith t.chars "-" || pyStartswith t.chars ":-") = true :=
    dashTok_starts t (hpos t (by simp))
  have halign : ((t :: ts).map DashTok.chars).map alignOf =
      (t :: ts).map DashTok.align := by
    rw [List.map_map]
    exact List.map_congr_left (fun x hx => alignOf_dashTok x (hpos x hx))
  have hwidth : ((t :: ts).map DashTok.chars).map
      (fun cell => cell.count '-') = (t :: ts).map DashTok.dashCount := by
    rw [List.map_map]
    exact List.map_congr_left (fun x _ => count_dashTok x)
  have hget : (r0 :: (t :: ts).map DashTok.chars :: rest).getD 1 [] =
      (t :: ts).map DashTok.chars := by
    simp [List.getD]
  have hfirst : ((t :: ts).map DashTok.chars).headD [] = t.chars := by
    simp
  have hlen : 1 < (r0 :: (t :: ts).map DashTok.chars :: rest).length := by
    simp
  unfold tableHeadingInfo
  dsimp only
  rw [if_pos hlen, hget, hfirst, if_pos hhead, halign, hwidth]
  simp [List.eraseIdx]

/-- C5 witness: the alignment row `|:-|-:|` over two columns makes column
1 left-aligned and column 2 right-aligned, and vanishes from the data
rows. -/
theorem tableHeading_c5_spec_witness :
    ([DashTok.colonDashes 1, DashTok.dashesColon 1] : List DashTok) ≠ [] ∧
      (∀ t ∈ ([DashTok.colonDashes 1, DashTok.dashesColon 1] : List DashTok),
        0 < t.dashCount) ∧
      (tableHeadingInfo (["h1".data, "h2".data] ::
          [DashTok.colonDashes 1, DashTok.dashesColon 1].map DashTok.chars ::
          [["a".data, "b".data]]) =
        (true,
          [DashTok.colonDashes 1, DashTok.dashesColon 1].map DashTok.align ++
            List.replicate
              (maxColumns (["h1".data, "h2".data] ::
                [DashTok.colonDashes 1,
                  DashTok.dashesColon 1].map DashTok.chars ::
                [["a".data, "b".data]]) - 2) 'l',
          [DashTok.colonDashes 1, DashTok.dashesColon 1].map
              DashTok.dashCount ++
            List.replicate
              (maxColumns (["h1".data, "h2".data] ::
                [DashTok.colonDashes 1,
                  DashTok.dashesColon 1].map DashTok.chars ::
                [["a".data, "b".data]]) - 2) 1,
          ["h1".data, "h2".data] :: [["a".data, "b".data]]) ∧
        ∀ (W : ℕ) (ws : List ℕ),
          tableColumnWidths W ws = ws.map (fun w => W * w / ws.sum)) :=
  ⟨by decide, by decide,
    tableHeading_c5_spec ["h1".data, "h2".data]
      [DashTok.colonDashes 1, DashTok.dashesColon 1] [["a".data, "b".data]]
      (by decide) (by decide)⟩

/-! ## Theorems for C7 -/

/-- The pre-chain `if`s of pass 5 never touch the card list, the slide
bullets, the open-card and in-list flags, or the indent option. -/
theorem stagePre_keeps (st : CompState) (l : List Char) :
    (stagePre st l).cards = st.cards ∧ (stagePre st l).bullets = st.bullets ∧
      (stagePre st l).inCard = st.inCard ∧
      (stagePre st l).inList = st.inList ∧
      (stagePre st l).indentSpaces = st.indentSpaces := by
  have h1 : ∀ s, (preStepOpenHTML s l).cards = s.cards ∧
      (preStepOpenHTML s l).bullets = s.bullets ∧
      (preStepOpenHTML s l).inCard = s.inCard ∧
      (preStepOpenHTML s l).inList = s.inList ∧
      (preStepOpenHTML s l).indentSpaces = s.indentSpaces := by
    intro s; unfold preStepOpenHTML; split_ifs <;> simp
  have h2 : ∀ s, (preStepCloseHTML s l).cards = s.cards ∧
      (preStepCloseHTML s l).bullets = s.bullets ∧
      (preStepCloseHTML s l).inCard = s.inCard ∧
      (preStepCloseHTML s l).inList = s.inList ∧
      (preStepCloseHTML s l).indentSpaces = s.indentSpaces := by
    intro s; unfold preStepCloseHTML; split_ifs <;> simp
  have h3 : ∀ s, (preStepFence s l).cards = s.cards ∧
      (preStepFence s l).bullets = s.bullets ∧
      (preStepFence s l).inCard = s.inCard ∧
      (preStepFence s l).inList = s.inList ∧
      (preStepFence s l).indentSpaces = s.indentSpaces := by
    intro s; unfold preStepFence; split_ifs <;> simp
  have h4 : ∀ s, (preStepCode s l).cards = s.cards ∧
      (preStepCode s l).bullets = s.bullets ∧
      (preStepCode s l).inCard = s.inCard ∧
      (preStepCode s l).inList = s.inList ∧
      (preStepCode s l).indentSpaces = s.indentSpaces := by
    intro s; unfold preStepCode; split_ifs <;> simp
  have h5 : ∀ s, (preStepBlank s l).cards = s.cards ∧
      (preStepBlank s l).bullets = s.bullets ∧
      (preStepBlank s l).inCard = s.inCard ∧
      (preStepBlank s l).inList = s.inList ∧
      (preStepBlank s l).indentSpaces = s.indentSpaces := by
    intro s; unfold preStepBlank; split_ifs <;> simp
  have h6 : ∀ s, (preStepIndent s l).cards = s.cards ∧
      (preStepIndent s l).bullets = s.bullets ∧
      (preStepIndent s l).inCard = s.inCard ∧
      (preStepIndent s l).inList = s.inList ∧
      (preStepIndent s l).indentSpaces = s.indentSpaces := by
    intro s; unfold preStepIndent; split_ifs <;> simp
  unfold stagePre
  obtain ⟨a1, a2, a3, a4, a5⟩ := h1 st
  obtain ⟨b1, b2, b3, b4, b5⟩ := h2 (preStepOpenHTML st l)
  obtain ⟨c1, c2, c3, c4, c5⟩ :=
    h3 (preStepCloseHTML (preStepOpenHTML st l) l)
  obtain ⟨d1, d2, d3, d4, d5⟩ :=
    h4 (preStepFence (preStepCloseHTML (preStepOpenHTML st l) l) l)
  obtain ⟨e1, e2, e3, e4, e5⟩ :=
    h5 (preStepCode (preStepFence
      (preStepCloseHTML (preStepOpenHTML st l) l) l) l)
  obtain ⟨f1, f2, f3, f4, f5⟩ :=
    h6 (preStepBlank (preStepCode (preStepFence
      (preStepCloseHTML (preStepOpenHTML st l) l) l) l) l)
  refine ⟨?_, ?_, ?_, ?_, ?_⟩
  · rw [f1, e1, d1, c1, b1, a1]
  · rw [f2, e2, d2, c2, b2, a2]
  · rw [f3, e3, d3, c3, b3, a3]
  · rw [f4, e4, d4, c4, b4, a4]
  · rw [f5, e5, d5, c5, b5, a5]

/-- A line matched by `bulletRegex` starts with whitespace or `*`. -/
theorem bulletMatch_head (l : List Char) (n : ℕ) (g3 : List Char)
    (h : bulletMatch l = some (n, g3)) :
    ∃ c rest, l = c :: rest ∧ (pyIsSpace c = true ∨ c = '*') := by
  unfold bulletMatch at h
  cases l with
  | nil => simp at h
  | cons c rest =>
    refine ⟨c, rest, rfl, ?_⟩
    by_cases hs : pyIsSpace c = true
    · exact Or.inl hs
    · by_cases hc : c = '*'
      · exact Or.inr hc
      · exfalso
        simp [List.takeWhile_cons, hs, hc] at h

/-- A line matched by `numberRegex` starts with whitespace or a digit. -/
theorem numberMatch_head (l : List Char) (n : ℕ) (g3 : List Char)
    (h : numberMatch l = some (n, g3)) :
    ∃ c rest, l = c :: rest ∧ (pyIsSpace c = true ∨ c.isDigit = true) := by
  unfold numberMatch at h
  cases l with
  | nil => simp at h
  | cons c rest =>
    refine ⟨c, rest, rfl, ?_⟩
    by_cases hs : pyIsSpace c = true
    · exact Or.inl hs
    · by_cases hd : c.isDigit = true
      · exact Or.inr hd
      · exfalso
        simp [List.takeWhile_cons, hs, hd] at h

/-- The bullet-handling body: on a card the entry goes to the last (open)
card and the slide bullets are untouched. -/
theorem bulletAppend_fields (s : CompState) (n : ℕ) (g3 : List Char)
    (kind : String) (hcard : s.inCard = true) :
    (bulletAppend s n g3 kind).cards = updateLast s.cards (fun c =>
      { c with bullets := c.bullets ++
          [(n / s.indentSpaces, pyLstrip g3, kind)] }) ∧
    (bulletAppend s n g3 kind).bullets = s.bullets := by
  by_cases hl : s.inList = true <;> simp [bulletAppend, hcard, hl]

/-- A `#`-headed line matches none of the other branch guards. -/
theorem hash_prefixes (rest : List Char) :
    pyStartswith ('#' :: rest) "<pre>" = false ∧
    pyStartswith ('#' :: rest) "<code>" = false ∧
    pyStartswith ('#' :: rest) "</pre>" = false ∧
    pyStartswith ('#' :: rest) "</code>" = false ∧
    pyStartswith ('#' :: rest) "```" = false ∧
    pyStartswith ('#' :: rest) "    " = false ∧
    pyStartswith ('#' :: rest) "<hr/>" = false ∧
    pyStartswith ('#' :: rest) "---" = false ∧
    pyStartswith ('#' :: rest) "***" = false ∧
    pyStartswith ('#' :: rest) "___" = false ∧
    pyStartswith ('#' :: rest) "-" = false ∧
    pyStartswith ('#' :: rest) "<a id=" = false ∧
    pyStartswith ('#' :: rest) "<!-- md2pptx: " = false ∧
    pyStartswith ('#' :: rest) "#" = true := by
  simp [pyStartswith, List.isPrefixOf]

/-- Outside any code block, the pre-chain `if`s leave the state alone on a
`#`-headed line. -/
theorem stagePre_hash (st : CompState) (rest : List Char)
    (h1 : st.inCode = false) (h2 : st.inHTMLCode = false)
    (h3 : st.inFencedCode = false) :
    stagePre st ('#' :: rest) = st := by
  obtain ⟨q1, q2, q3, q4, q5, q6, -⟩ := hash_prefixes rest
  unfold stagePre preStepOpenHTML preStepCloseHTML preStepFence preStepCode
    preStepBlank preStepIndent
  simp [pyStartswithOneOf, q1, q2, q3, q4, q5, q6, h1, h2, h3]

/-- A needle whose first character differs from the line's first character
is not a prefix of the line. -/
theorem startswith_false_head (c : Char) (rest : List Char) (p : String)
    (c₀ : Char) (p' : List Char) (hp : p.data = c₀ :: p')
    (hne : (c₀ == c) = false) : pyStartswith (c :: rest) p = false := by
  unfold pyStartswith
  rw [hp]
  simp [List.isPrefixOf, hne]

/-- Character classification: a non-space, non-`*`, non-digit character is
distinct from any bullet/number line head. -/
theorem beq_false_of_class (c₀ c : Char) (h0s : pyIsSpace c₀ = false)
    (h0st : (c₀ == '*') = false) (h0d : c₀.isDigit = false)
    (hc : pyIsSpace c = true ∨ c = '*' ∨ c.isDigit = true) :
    (c₀ == c) = false := by
  cases hbe : (c₀ == c) with
  | false => rfl
  | true =>
    exfalso
    have he : c₀ = c := eq_of_beq hbe
    subst he
    rcases hc with hc | hc | hc
    · rw [hc] at h0s; exact absurd h0s (by simp)
    · subst hc; simp at h0st
    · rw [hc] at h0d; exact absurd h0d (by simp)

/-- If the earlier branch guards fail and `bulletRegex` matches, the
dispatch chain runs the bulleted-list body. -/
theorem processChain_bullet (s : CompState) (ln : ℤ) (l : List Char)
    (n : ℕ) (g3 : List Char)
    (p1 : pyStartswith l "-" = false) (p2 : pyStartswith l "<a id=" = false)
    (p3 : pyStartswith l "<!-- md2pptx: " = false)
    (p4 : pyStartswith l "#" = false)
    (hb : bulletMatch l = some (n, g3)) :
    processChain s ln l = bulletAppend s n g3 "bulleted" := by
  unfold processChain
  rw [p1, p2, p3, p4, hb]
  simp

/-- Likewise for `numberRegex`. -/
theorem processChain_numbered (s : CompState) (ln : ℤ) (l : List Char)
    (n : ℕ) (g3 : List Char)
    (p1 : pyStartswith l "-" = false) (p2 : pyStartswith l "<a id=" = false)
    (p3 : pyStartswith l "<!-- md2pptx: " = false)
    (p4 : pyStartswith l "#" = false)
    (hb : bulletMatch l = none) (hnum : numberMatch l = some (n, g3)) :
    processChain s ln l = bulletAppend s n g3 "numbered" := by
  unfold processChain
  rw [p1, p2, p3, p4, hb, hnum]
  simp

/-- A `#`-headed line outside code dispatches to the heading branch. -/
theorem processChain_cardHeading (s : CompState) (ln : ℤ) (rest : List Char)
    (hcode : s.inCode = false) :
    processChain s ln ('#' :: rest) = headingStep s ('#' :: rest) := by
  obtain ⟨q1, q2, q3, q4, q5, q6, q7, q8, q9, q10, q11, q12, q13, q14⟩ :=
    hash_prefixes rest
  unfold processChain
  rw [q11, q12, q13, q14, hcode]
  simp

/-- A line that is neither the sentinel nor a horizontal rule reaches the
dispatch chain with the pre-chain state. -/
theorem processNorm_chain (st : CompState) (ln : ℤ) (l : List Char)
    (hig : l ≠ "<ignoreme>".data)
    (hhr : pyStartswithOneOf l ["<hr/>", "---", "***", "___"] = false) :
    processNorm st ln l = processChain (stagePre st l) ln l := by
  unfold processNorm
  rw [if_neg hig]
  dsimp only
  rw [hhr]
  simp

/-- A line whose first `cardLevel` characters are `####` decomposes. -/
theorem take_four_hash (nl : List Char)
    (h : nl.take cardLevel = List.replicate cardLevel '#') :
    ∃ r, nl = '#' :: '#' :: '#' :: '#' :: r := by
  rcases nl with _ | ⟨c1, nl⟩
  · simp [cardLevel, contentLevel, sectionLevel, titleLevel] at h
  rcases nl with _ | ⟨c2, nl⟩
  · simp [cardLevel, contentLevel, sectionLevel, titleLevel] at h
  rcases nl with _ | ⟨c3, nl⟩
  · simp [cardLevel, contentLevel, sectionLevel, titleLevel] at h
  rcases nl with _ | ⟨c4, nl⟩
  · simp [cardLevel, contentLevel, sectionLevel, titleLevel] at h
  simp [cardLevel, contentLevel, sectionLevel, titleLevel] at h
  obtain ⟨e1, e2, e3, e4⟩ := h
  exact ⟨nl, by rw [e1, e2, e3, e4]⟩

/-- C7: (i) a bullet or numbered-item line processed while a card is open
appends its entry — at level `⌊markerColumn / indentSpaces⌋` — to the open
(last) card's bullet list and leaves the slide's own bullet list
untouched; (ii) a card heading (`####…`, outside code) appends a fresh
card with an *empty* bullet list, leaving every existing card — and the
slide bullets — unchanged, so closing a card freezes its bullets. -/
theorem cardBullets_c7_spec :
    (∀ (st : CompState) (ln : ℤ) (line nl : List Char) (n : ℕ)
      (g3 : List Char) (kind : String),
      pyExpandTabs st.indentSpaces (pyRstrip line) = nl →
      st.inCard = true →
      (bulletMatch nl = some (n, g3) ∧ kind = "bulleted" ∨
        bulletMatch nl = none ∧ numberMatch nl = some (n, g3) ∧
          kind = "numbered") →
      pyStartswithOneOf nl ["<hr/>", "---", "***", "___"] = false →
      (processBody st ln line).cards = updateLast st.cards (fun c =>
          { c with bullets := c.bullets ++
              [(n / st.indentSpaces, pyLstrip g3, kind)] }) ∧
        (processBody st ln line).bullets = st.bullets) ∧
    (∀ (st : CompState) (ln : ℤ) (line nl : List Char),
      pyExpandTabs st.indentSpaces (pyRstrip line) = nl →
      st.inCode = false → st.inHTMLCode = false → st.inFencedCode = false →
      nl.take cardLevel = List.replicate cardLevel '#' →
      (processBody st ln line).cards = st.cards ++
          [{ title := (parseTitleText (nl.drop cardLevel)).1, bullets := [],
             graphic := [] }] ∧
        (processBody st ln line).bullets = st.bullets ∧
        (processBody st ln line).inCard = true) := by
  constructor
  · intro st ln line nl n g3 kind hnl hcard hkind hhr
    have hdec : ∃ c rest, nl = c :: rest ∧
        (pyIsSpace c = true ∨ c = '*' ∨ c.isDigit = true) := by
      rcases hkind with ⟨hb, -⟩ | ⟨-, hb, -⟩
      · obtain ⟨c, rest, hrc, hcc⟩ := bulletMatch_head nl n g3 hb
        exact ⟨c, rest, hrc, hcc.imp id Or.inl⟩
      · obtain ⟨c, rest, hrc, hcc⟩ := numberMatch_head nl n g3 hb
        exact ⟨c, rest, hrc, hcc.imp id Or.inr⟩
    obtain ⟨c, rest, hrc, hcc⟩ := hdec
    subst hrc
    have p1 : pyStartswith (c :: rest) "-" = false :=
      startswith_false_head c rest "-" '-' [] rfl
        (beq_false_of_class '-' c (by decide) (by decide) (by decide) hcc)
    have p2 : pyStartswith (c :: rest) "<a id=" = false :=
      startswith_false_head c rest "<a id=" '<' "a id=".data rfl
        (beq_false_of_class '<' c (by decide) (by decide) (by decide) hcc)
    have p3 : pyStartswith (c :: rest) "<!-- md2pptx: " = false :=
      startswith_false_head c rest "<!-- md2pptx: " '<' "!-- md2pptx: ".data
        rfl (beq_false_of_class '<' c (by decide) (by decide) (by decide) hcc)
    have p4 : pyStartswith (c :: rest) "#" = false :=
      startswith_false_head c rest "#" '#' [] rfl
        (beq_false_of_class '#' c (by decide) (by decide) (by decide) hcc)
    have hig : (c :: rest) ≠ "<ignoreme>".data := by
      intro he
      have hch : c = '<' := by
        have := congrArg (fun l => l.headD ' ') he
        simpa using this
      subst hch
      exact absurd hcc (by decide)
    have hred : processBody st ln line =
        processChain (stagePre st (c :: rest)) ln (c :: rest) := by
      unfold processBody
      rw [hnl]
      exact processNorm_chain st ln (c :: rest) hig hhr
    obtain ⟨k1, k2, k3, k4, k5⟩ := stagePre_keeps st (c :: rest)
    rcases hkind with ⟨hb, hkindeq⟩ | ⟨hbnone, hnum, hkindeq⟩
    · subst hkindeq
      rw [hred, processChain_bullet _ ln _ n g3 p1 p2 p3 p4 hb]
      obtain ⟨ba1, ba2⟩ := bulletAppend_fields (stagePre st (c :: rest)) n g3
        "bulleted" (by rw [k3, hcard])
      rw [ba1, ba2, k1, k2, k5]
      exact ⟨rfl, rfl⟩
    · subst hkindeq
      rw [hred, processChain_numbered _ ln _ n g3 p1 p2 p3 p4 hbnone hnum]
      obtain ⟨ba1, ba2⟩ := bulletAppend_fields (stagePre st (c :: rest)) n g3
        "numbered" (by rw [k3, hcard])
      rw [ba1, ba2, k1, k2, k5]
      exact ⟨rfl, rfl⟩
  · intro st ln line nl hnl h1 h2 h3 htake
    obtain ⟨r, hr⟩ := take_four_hash nl htake
    subst hr
    have hig : ('#' :: '#' :: '#' :: '#' :: r) ≠ "<ignoreme>".data := by
      intro he
      have hch : ('#' : Char) = '<' := by
        have := congrArg (fun l => l.headD ' ') he
        simp at this
      exact absurd hch (by decide)
    have hhr : pyStartswithOneOf ('#' :: '#' :: '#' :: '#' :: r)
        ["<hr/>", "---", "***", "___"] = false := by
      obtain ⟨-, -, -, -, -, -, q7, q8, q9, q10, -⟩ :=
        hash_prefixes ('#' :: '#' :: '#' :: r)
      simp [pyStartswithOneOf, q7, q8, q9, q10]
    have hred : processBody st ln line =
        processChain st ln ('#' :: '#' :: '#' :: '#' :: r) := by
      unfold processBody
      rw [hnl]
      rw [processNorm_chain st ln ('#' :: '#' :: '#' :: '#' :: r) hig hhr]
      rw [stagePre_hash st ('#' :: '#' :: '#' :: r) h1 h2 h3]
    rw [hred, processChain_cardHeading st ln ('#' :: '#' :: '#' :: r) h1]
    unfold headingStep
    rw [if_pos htake]
    exact ⟨rfl, rfl, rfl⟩

/-- C7 witness: with a card open (state holding one card `T`), the line
`␣␣* hi` (indentSpaces = 2) appends the level-1 bullet `hi` to the card
and leaves the slide bullets empty. -/
theorem cardBullets_c7_spec_witness :
    pyExpandTabs ({ initState 2 with
        inCard := true,
        cards := [{ title := ['T'], bullets := [], graphic := [] }] } :
          CompState).indentSpaces
        (pyRstrip "  * hi".data) = "  * hi".data ∧
      ({ initState 2 with
        inCard := true,
        cards := [{ title := ['T'], bullets := [], graphic := [] }] } :
          CompState).inCard = true ∧
      bulletMatch "  * hi".data = some (2, " hi".data) ∧
      pyStartswithOneOf "  * hi".data ["<hr/>", "---", "***", "___"] =
        false ∧
      ((processBody { initState 2 with
          inCard := true,
          cards := [{ title := ['T'], bullets := [], graphic := [] }] }
          0 "  * hi".data).cards =
        updateLast ({ initState 2 with
          inCard := true,
          cards := [{ title := ['T'], bullets := [], graphic := [] }] } :
            CompState).cards (fun c =>
            { c with bullets := c.bullets ++
                [(2 / ({ initState 2 with
                  inCard := true,
                  cards :=
                    [{ title := ['T'], bullets := [], graphic := [] }] } :
                      CompState).indentSpaces,
                  pyLstrip " hi".data, "bulleted")] }) ∧
        (processBody { initState 2 with
          inCard := true,
          cards := [{ title := ['T'], bullets := [], graphic := [] }] }
          0 "  * hi".data).bullets =
          ({ initState 2 with
            inCard := true,
            cards := [{ title := ['T'], bullets := [], graphic := [] }] } :
              CompState).bullets) :=
  ⟨by decide, by decide, by decide, by decide,
    cardBullets_c7_spec.1
      { initState 2 with
        inCard := true,
        cards := [{ title := ['T'], bullets := [], graphic := [] }] }
      0 "  * hi".data "  * hi".data 2 " hi".data "bulleted" (by decide)
      (by decide) (Or.inl ⟨by decide, rfl⟩) (by decide)⟩

/-! ## Theorems for C9 -/

/-- C9: when the top-left media file of a graphics grid is missing
(`getGraphicDimensions` returns width `-1`), `createTableBlock` reports
the file and returns before any shape is added — the block contributes no
shapes — and the per-block loop of the content slide still renders every
other block exactly as it otherwise would. -/
theorem renderGrid_c9_spec (dims : List Char → ℤ × ℤ) (b : GridBlock)
    (hne : b.topLeft ≠ []) (hmiss : (dims b.topLeft).1 = -1) :
    (renderGraphicsGrid dims b.gridRows b.gridColumns b.topLeft b.topRight
        b.bottomLeft b.bottomRight).2 = [] ∧
      (renderGraphicsGrid dims b.gridRows b.gridColumns b.topLeft b.topRight
        b.bottomLeft b.bottomRight).1 =
        ["Missing image file: ".data ++ b.topLeft] ∧
      ∀ pre post : List GridBlock,
        renderBlocks dims (pre ++ b :: post) =
          renderBlocks dims pre ++
            (["Missing image file: ".data ++ b.topLeft], []) ::
              renderBlocks dims post := by
  have hv : renderGraphicsGrid dims b.gridRows b.gridColumns b.topLeft
      b.topRight b.bottomLeft b.bottomRight =
      (["Missing image file: ".data ++ b.topLeft], []) := by
    unfold renderGraphicsGrid
    rw [if_pos ⟨hne, hmiss⟩]
  refine ⟨by rw [hv], by rw [hv], ?_⟩
  intro pre post
  unfold renderBlocks
  rw [List.map_append, List.map_cons, hv]

/-- C9 witness: a 2×2 grid whose top-left file `a.png` is missing renders
no shapes, and the following block (a present single image) still renders
its picture. -/
theorem renderGrid_c9_spec_witness :
    ("a.png".data : List Char) ≠ [] ∧
      (((fun f => if f = "a.png".data then ((-1 : ℤ), (-1 : ℤ))
          else (800, 600)) "a.png".data).1 = -1) ∧
      ((renderGraphicsGrid
          (fun f => if f = "a.png".data then ((-1 : ℤ), (-1 : ℤ))
            else (800, 600))
          2 2 "a.png".data "b.png".data "c.png".data "d.png".data).2 = [] ∧
        (renderGraphicsGrid
          (fun f => if f = "a.png".data then ((-1 : ℤ), (-1 : ℤ))
            else (800, 600))
          2 2 "a.png".data "b.png".data "c.png".data "d.png".data).1 =
          ["Missing image file: ".data ++ "a.png".data] ∧
        ∀ pre post : List GridBlock,
          renderBlocks
              (fun f => if f = "a.png".data then ((-1 : ℤ), (-1 : ℤ))
                else (800, 600)) (pre ++
              (GridBlock.mk 2 2 "a.png".data "b.png".data "c.png".data
                "d.png".data) :: post) =
            renderBlocks
              (fun f => if f = "a.png".data then ((-1 : ℤ), (-1 : ℤ))
                else (800, 600)) pre ++
              (["Missing image file: ".data ++ "a.png".data], []) ::
                renderBlocks
                  (fun f => if f = "a.png".data then ((-1 : ℤ), (-1 : ℤ))
                    else (800, 600)) post) :=
  ⟨by decide, by decide,
    renderGrid_c9_spec
      (fun f => if f = "a.png".data then ((-1 : ℤ), (-1 : ℤ)) else (800, 600))
      (GridBlock.mk 2 2 "a.png".data "b.png".data "c.png".data "d.png".data)
      (by decide) (by decide)⟩

end Md2pptx
